import Mathlib

/-!
# Arm64Emitter: register tags, operand descriptors and the code buffer

A shallow embedding of `Source/Core/Common/Arm64Emitter.h` (namespace `Arm64Gen`).

* `ARM64Reg` is an unscoped C++ enum whose largest enumerator is
  `INVALID_REG = 0xFFFFFFFF`; its values are unsigned 32-bit integers and the helper
  functions cast arbitrary integers back to it, so a register tag is a natural number.
* Pointers (`u8*`) are byte addresses, natural numbers without wrap-around, and memory
  is a map from byte address to byte value.
-/

namespace Arm64Gen

/-- A register tag, encoded as `<u3:type><u5:reg>`. -/
abbrev ARM64Reg := Nat

-- 32bit registers (WSP: 32bit stack pointer)
def W0 : ARM64Reg := 0x00
def W1 : ARM64Reg := 0x01
def W2 : ARM64Reg := 0x02
def W3 : ARM64Reg := 0x03
def W4 : ARM64Reg := 0x04
def W5 : ARM64Reg := 0x05
def W6 : ARM64Reg := 0x06
def W7 : ARM64Reg := 0x07
def W8 : ARM64Reg := 0x08
def W9 : ARM64Reg := 0x09
def W10 : ARM64Reg := 0x0A
def W11 : ARM64Reg := 0x0B
def W12 : ARM64Reg := 0x0C
def W13 : ARM64Reg := 0x0D
def W14 : ARM64Reg := 0x0E
def W15 : ARM64Reg := 0x0F
def W16 : ARM64Reg := 0x10
def W17 : ARM64Reg := 0x11
def W18 : ARM64Reg := 0x12
def W19 : ARM64Reg := 0x13
def W20 : ARM64Reg := 0x14
def W21 : ARM64Reg := 0x15
def W22 : ARM64Reg := 0x16
def W23 : ARM64Reg := 0x17
def W24 : ARM64Reg := 0x18
def W25 : ARM64Reg := 0x19
def W26 : ARM64Reg := 0x1A
def W27 : ARM64Reg := 0x1B
def W28 : ARM64Reg := 0x1C
def W29 : ARM64Reg := 0x1D
def W30 : ARM64Reg := 0x1E
def WSP : ARM64Reg := 0x1F

-- 64bit registers (SP: 64bit stack pointer)
def X0 : ARM64Reg := 0x20
def X1 : ARM64Reg := 0x21
def X2 : ARM64Reg := 0x22
def X3 : ARM64Reg := 0x23
def X4 : ARM64Reg := 0x24
def X5 : ARM64Reg := 0x25
def X6 : ARM64Reg := 0x26
def X7 : ARM64Reg := 0x27
def X8 : ARM64Reg := 0x28
def X9 : ARM64Reg := 0x29
def X10 : ARM64Reg := 0x2A
def X11 : ARM64Reg := 0x2B
def X12 : ARM64Reg := 0x2C
def X13 : ARM64Reg := 0x2D
def X14 : ARM64Reg := 0x2E
def X15 : ARM64Reg := 0x2F
def X16 : ARM64Reg := 0x30
def X17 : ARM64Reg := 0x31
def X18 : ARM64Reg := 0x32
def X19 : ARM64Reg := 0x33
def X20 : ARM64Reg := 0x34
def X21 : ARM64Reg := 0x35
def X22 : ARM64Reg := 0x36
def X23 : ARM64Reg := 0x37
def X24 : ARM64Reg := 0x38
def X25 : ARM64Reg := 0x39
def X26 : ARM64Reg := 0x3A
def X27 : ARM64Reg := 0x3B
def X28 : ARM64Reg := 0x3C
def X29 : ARM64Reg := 0x3D
def X30 : ARM64Reg := 0x3E
def SP : ARM64Reg := 0x3F

-- VFP single precision registers
def S0 : ARM64Reg := 0x40
def S1 : ARM64Reg := 0x41
def S2 : ARM64Reg := 0x42
def S3 : ARM64Reg := 0x43
def S4 : ARM64Reg := 0x44
def S5 : ARM64Reg := 0x45
def S6 : ARM64Reg := 0x46
def S7 : ARM64Reg := 0x47
def S8 : ARM64Reg := 0x48
def S9 : ARM64Reg := 0x49
def S10 : ARM64Reg := 0x4A
def S11 : ARM64Reg := 0x4B
def S12 : ARM64Reg := 0x4C
def S13 : ARM64Reg := 0x4D
def S14 : ARM64Reg := 0x4E
def S15 : ARM64Reg := 0x4F
def S16 : ARM64Reg := 0x50
def S17 : ARM64Reg := 0x51
def S18 : ARM64Reg := 0x52
def S19 : ARM64Reg := 0x53
def S20 : ARM64Reg := 0x54
def S21 : ARM64Reg := 0x55
def S22 : ARM64Reg := 0x56
def S23 : ARM64Reg := 0x57
def S24 : ARM64Reg := 0x58
def S25 : ARM64Reg := 0x59
def S26 : ARM64Reg := 0x5A
def S27 : ARM64Reg := 0x5B
def S28 : ARM64Reg := 0x5C
def S29 : ARM64Reg := 0x5D
def S30 : ARM64Reg := 0x5E
def S31 : ARM64Reg := 0x5F

-- VFP Double Precision registers
def D0 : ARM64Reg := 0x80
def D1 : ARM64Reg := 0x81
def D2 : ARM64Reg := 0x82
def D3 : ARM64Reg := 0x83
def D4 : ARM64Reg := 0x84
def D5 : ARM64Reg := 0x85
def D6 : ARM64Reg := 0x86
def D7 : ARM64Reg := 0x87
def D8 : ARM64Reg := 0x88
def D9 : ARM64Reg := 0x89
def D10 : ARM64Reg := 0x8A
def D11 : ARM64Reg := 0x8B
def D12 : ARM64Reg := 0x8C
def D13 : ARM64Reg := 0x8D
def D14 : ARM64Reg := 0x8E
def D15 : ARM64Reg := 0x8F
def D16 : ARM64Reg := 0x90
def D17 : ARM64Reg := 0x91
def D18 : ARM64Reg := 0x92
def D19 : ARM64Reg := 0x93
def D20 : ARM64Reg := 0x94
def D21 : ARM64Reg := 0x95
def D22 : ARM64Reg := 0x96
def D23 : ARM64Reg := 0x97
def D24 : ARM64Reg := 0x98
def D25 : ARM64Reg := 0x99
def D26 : ARM64Reg := 0x9A
def D27 : ARM64Reg := 0x9B
def D28 : ARM64Reg := 0x9C
def D29 : ARM64Reg := 0x9D
def D30 : ARM64Reg := 0x9E
def D31 : ARM64Reg := 0x9F

-- ASIMD Quad-Word registers
def Q0 : ARM64Reg := 0xC0
def Q1 : ARM64Reg := 0xC1
def Q2 : ARM64Reg := 0xC2
def Q3 : ARM64Reg := 0xC3
def Q4 : ARM64Reg := 0xC4
def Q5 : ARM64Reg := 0xC5
def Q6 : ARM64Reg := 0xC6
def Q7 : ARM64Reg := 0xC7
def Q8 : ARM64Reg := 0xC8
def Q9 : ARM64Reg := 0xC9
def Q10 : ARM64Reg := 0xCA
def Q11 : ARM64Reg := 0xCB
def Q12 : ARM64Reg := 0xCC
def Q13 : ARM64Reg := 0xCD
def Q14 : ARM64Reg := 0xCE
def Q15 : ARM64Reg := 0xCF
def Q16 : ARM64Reg := 0xD0
def Q17 : ARM64Reg := 0xD1
def Q18 : ARM64Reg := 0xD2
def Q19 : ARM64Reg := 0xD3
def Q20 : ARM64Reg := 0xD4
def Q21 : ARM64Reg := 0xD5
def Q22 : ARM64Reg := 0xD6
def Q23 : ARM64Reg := 0xD7
def Q24 : ARM64Reg := 0xD8
def Q25 : ARM64Reg := 0xD9
def Q26 : ARM64Reg := 0xDA
def Q27 : ARM64Reg := 0xDB
def Q28 : ARM64Reg := 0xDC
def Q29 : ARM64Reg := 0xDD
def Q30 : ARM64Reg := 0xDE
def Q31 : ARM64Reg := 0xDF

def INVALID_REG : ARM64Reg := 0xFFFFFFFF

/-- The named 32-bit general registers `W0 .. W30, WSP`, in index order. -/
def regsW : List ARM64Reg :=
  [W0, W1, W2, W3, W4, W5, W6, W7,
   W8, W9, W10, W11, W12, W13, W14, W15,
   W16, W17, W18, W19, W20, W21, W22, W23,
   W24, W25, W26, W27, W28, W29, W30, WSP]

/-- The named 64-bit general registers `X0 .. X30, SP`, in index order. -/
def regsX : List ARM64Reg :=
  [X0, X1, X2, X3, X4, X5, X6, X7,
   X8, X9, X10, X11, X12, X13, X14, X15,
   X16, X17, X18, X19, X20, X21, X22, X23,
   X24, X25, X26, X27, X28, X29, X30, SP]

/-- The named single-precision registers `S0 .. S31`, in index order. -/
def regsS : List ARM64Reg :=
  [S0, S1, S2, S3, S4, S5, S6, S7,
   S8, S9, S10, S11, S12, S13, S14, S15,
   S16, S17, S18, S19, S20, S21, S22, S23,
   S24, S25, S26, S27, S28, S29, S30, S31]

/-- The named double-precision registers `D0 .. D31`, in index order. -/
def regsD : List ARM64Reg :=
  [D0, D1, D2, D3, D4, D5, D6, D7,
   D8, D9, D10, D11, D12, D13, D14, D15,
   D16, D17, D18, D19, D20, D21, D22, D23,
   D24, D25, D26, D27, D28, D29, D30, D31]

/-- The named quad-word registers `Q0 .. Q31`, in index order. -/
def regsQ : List ARM64Reg :=
  [Q0, Q1, Q2, Q3, Q4, Q5, Q6, Q7,
   Q8, Q9, Q10, Q11, Q12, Q13, Q14, Q15,
   Q16, Q17, Q18, Q19, Q20, Q21, Q22, Q23,
   Q24, Q25, Q26, Q27, Q28, Q29, Q30, Q31]

/-- Every named register tag of the enum (the prefetch aliases and `INVALID_REG` apart). -/
def namedRegs : List ARM64Reg := regsW ++ regsX ++ regsS ++ regsD ++ regsQ

/-- Bitwise complement of a 32-bit unsigned value (C++ `~x` after conversion to `u32`). -/
def not32 (x : Nat) : Nat := 0xFFFFFFFF ^^^ (x % 2 ^ 32)

/-- Source: `inline bool Is64Bit(ARM64Reg reg) { return reg & 0x20; }`. -/
def Is64Bit (reg : ARM64Reg) : Bool := (reg &&& 0x20) != 0

/-- Source: `inline bool IsSingle(ARM64Reg reg) { return reg & 0x40; }`. -/
def IsSingle (reg : ARM64Reg) : Bool := (reg &&& 0x40) != 0

/-- Source: `inline bool IsDouble(ARM64Reg reg) { return reg & 0x80; }`. -/
def IsDouble (reg : ARM64Reg) : Bool := (reg &&& 0x80) != 0

/-- Source: `inline bool IsQuad(ARM64Reg reg) { return (reg & 0xC0) == 0xC0; }`. -/
def IsQuad (reg : ARM64Reg) : Bool := (reg &&& 0xC0) == 0xC0

/-- Source: `inline bool IsVector(ARM64Reg reg) { return (reg & 0xC0) != 0; }`. -/
def IsVector (reg : ARM64Reg) : Bool := (reg &&& 0xC0) != 0

/-- Source: `inline ARM64Reg DecodeReg(ARM64Reg reg) { return (ARM64Reg)(reg & 0x1F); }`. -/
def DecodeReg (reg : ARM64Reg) : ARM64Reg := reg &&& 0x1F

/-- Source: `inline ARM64Reg EncodeRegTo64(ARM64Reg reg) { return (ARM64Reg)(reg | 0x20); }`. -/
def EncodeRegTo64 (reg : ARM64Reg) : ARM64Reg := reg ||| 0x20

/-- Source: `EncodeRegToDouble(reg) = (ARM64Reg)((reg & ~0xC0) | 0x80)`. -/
def EncodeRegToDouble (reg : ARM64Reg) : ARM64Reg := (reg &&& not32 0xC0) ||| 0x80

/-- Source: `inline ARM64Reg EncodeRegToQuad(ARM64Reg reg) { return (ARM64Reg)(reg | 0xC0); }`. -/
def EncodeRegToQuad (reg : ARM64Reg) : ARM64Reg := reg ||| 0xC0

/-- The five class tests named by the register-class invariant, in the order
32-bit GPR (neither `Is64Bit` nor `IsVector`), 64-bit GPR (`Is64Bit`), vector-S
(`IsSingle`), vector-D (`IsDouble`), vector-Q (`IsQuad`). -/
def classTests (r : ARM64Reg) : List Bool :=
  [!Is64Bit r && !IsVector r, Is64Bit r, IsSingle r, IsDouble r, IsQuad r]

/-- The class tests with the two single-bit vector tests made exclusive of each other:
vector-S is `IsSingle` without `IsDouble`, vector-D is `IsDouble` without `IsSingle`. -/
def classTestsExclusive (r : ARM64Reg) : List Bool :=
  [!Is64Bit r && !IsVector r, Is64Bit r, IsSingle r && !IsDouble r,
   IsDouble r && !IsSingle r, IsQuad r]

/-! ## Operand descriptor -/

/-- Left shift of a `u32` by a constant, wrapping at 32 bits: C++ `x << n` on `u32`. -/
def shl32 (x n : Nat) : Nat := (x <<< n) % 2 ^ 32

/-- Source: `enum ShiftType { ST_LSL = 0, ST_LSR = 1, ST_ASR = 2, ST_ROR = 3 }`. -/
inductive ShiftType where
  | ST_LSL
  | ST_LSR
  | ST_ASR
  | ST_ROR
  deriving DecidableEq

/-- The integer value of a `ShiftType` enumerator. -/
def ShiftType.toNat : ShiftType → Nat
  | .ST_LSL => 0
  | .ST_LSR => 1
  | .ST_ASR => 2
  | .ST_ROR => 3

/-- Source: `enum ArithOption::WidthSpecifier`. -/
inductive ArithOption.WidthSpecifier where
  | WIDTH_DEFAULT
  | WIDTH_32BIT
  | WIDTH_64BIT
  deriving DecidableEq

/-- Source: `enum ArithOption::ExtendSpecifier`. -/
inductive ArithOption.ExtendSpecifier where
  | EXTEND_UXTB
  | EXTEND_UXTH
  | EXTEND_UXTW
  | EXTEND_UXTX
  | EXTEND_SXTB
  | EXTEND_SXTH
  | EXTEND_SXTW
  | EXTEND_SXTX
  deriving DecidableEq

/-- The integer value of an `ExtendSpecifier` enumerator (`EXTEND_UXTB = 0x0` up to
`EXTEND_SXTX = 0x7`). -/
def ArithOption.ExtendSpecifier.toNat : ArithOption.ExtendSpecifier → Nat
  | .EXTEND_UXTB => 0x0
  | .EXTEND_UXTH => 0x1
  | .EXTEND_UXTW => 0x2
  | .EXTEND_UXTX => 0x3
  | .EXTEND_SXTB => 0x4
  | .EXTEND_SXTH => 0x5
  | .EXTEND_SXTW => 0x6
  | .EXTEND_SXTX => 0x7

/-- Source: `enum ArithOption::TypeSpecifier`. -/
inductive ArithOption.TypeSpecifier where
  | TYPE_EXTENDEDREG
  | TYPE_IMM
  | TYPE_SHIFTEDREG
  deriving DecidableEq

/-- Source: the private fields of `class ArithOption`; `m_shift` is a `u32`. -/
structure ArithOption where
  m_destReg : ARM64Reg
  m_width : ArithOption.WidthSpecifier
  m_extend : ArithOption.ExtendSpecifier
  m_type : ArithOption.TypeSpecifier
  m_shifttype : ShiftType
  m_shift : Nat

/-- Source: `ArithOption(ARM64Reg Rd, bool index = false)`. The C++ constructor assigns
into storage of indeterminate content; `uninit` is that content, so a field the
constructor does not assign (`m_shifttype`) keeps whatever `uninit` holds. -/
def ArithOption.ArithOption_ext (uninit : ArithOption) (Rd : ARM64Reg) (index : Bool) :
    ArithOption :=
  let o := uninit
  let o := if index then { o with m_shift := 4 } else { o with m_shift := 0 }
  let o := { o with m_destReg := Rd }
  let o := { o with m_type := .TYPE_EXTENDEDREG }
  if Is64Bit Rd then
    { o with m_width := .WIDTH_64BIT, m_extend := .EXTEND_UXTX }
  else
    { o with m_width := .WIDTH_32BIT, m_extend := .EXTEND_UXTW }

/-- Source: `ArithOption(ARM64Reg Rd, ShiftType shift_type, u32 shift)`. As above,
`uninit` is the indeterminate storage; this constructor does not assign `m_extend`. -/
def ArithOption.ArithOption_shift (uninit : ArithOption) (Rd : ARM64Reg)
    (shift_type : ShiftType) (shift : Nat) : ArithOption :=
  let o := uninit
  let o := { o with m_destReg := Rd }
  let o := { o with m_shift := shift }
  let o := { o with m_shifttype := shift_type }
  let o := { o with m_type := .TYPE_SHIFTEDREG }
  if Is64Bit Rd then
    let o := { o with m_width := .WIDTH_64BIT }
    if shift = 64 then { o with m_shift := 0 } else o
  else
    let o := { o with m_width := .WIDTH_32BIT }
    if shift = 32 then { o with m_shift := 0 } else o

/-- Source: `TypeSpecifier GetType() const`. -/
def ArithOption.GetType (o : ArithOption) : ArithOption.TypeSpecifier := o.m_type

/-- Source: `ARM64Reg GetReg()`. -/
def ArithOption.GetReg (o : ArithOption) : ARM64Reg := o.m_destReg

/-- The outcome of a call that can pass the debug assertion `_dbg_assert_msg_`. The macro
is defined in `Common/Common.h`, which is not among the sources; the sources show that it
comes back to its caller, since the statements after it are run (`break; return 0;` in
`GetData`, the write-back and `return true` after the constant-false assertions of
`WII_IPC_HLE_Device_es.cpp`), and the spec notes that it is compiled out of release
builds. `ok val`: the call returned `val` and passed no failed assertion.
`asserted msg val`: the call passed an assertion whose condition was false, with message
`msg`, and went on to return `val`. -/
inductive DbgAssert (α : Type) where
  | ok (val : α)
  | asserted (msg : String) (val : α)
  deriving DecidableEq

/-- The value a call returned, whether or not it passed a failed assertion. -/
def DbgAssert.val {α : Type} : DbgAssert α → α
  | .ok val => val
  | .asserted _ val => val

/-- Source: `u32 GetData() const`. The enumerators are shifted as `int`, `m_shift` as
`u32`. The `default` branch passes `_dbg_assert_msg_(DYNA_REC, false, "Invalid type in
GetData")`, leaves the `switch` by `break` and ends in `return 0`. -/
def ArithOption.GetData (o : ArithOption) : DbgAssert Nat :=
  match o.m_type with
  | .TYPE_EXTENDEDREG => .ok ((o.m_extend.toNat <<< 13) ||| shl32 o.m_shift 10)
  | .TYPE_SHIFTEDREG => .ok ((o.m_shifttype.toNat <<< 22) ||| shl32 o.m_shift 10)
  | _ => .asserted "Invalid type in GetData" 0

/-! ## Code buffer -/

/-- Byte-addressed memory: the byte stored at each address. -/
abbrev Memory := Nat → Nat

/-- Store of a `u32` through a `u32*` on a little-endian host: `*(u32*)addr = value`. -/
def store_u32 (mem : Memory) (addr value : Nat) : Memory := fun a =>
  if a = addr then value % 256
  else if a = addr + 1 then (value >>> 8) % 256
  else if a = addr + 2 then (value >>> 16) % 256
  else if a = addr + 3 then (value >>> 24) % 256
  else mem a

/-- Load of a `u32` through a `u32*` on a little-endian host: `*(u32*)addr`. -/
def load_u32 (mem : Memory) (addr : Nat) : Nat :=
  mem addr + mem (addr + 1) * 2 ^ 8 + mem (addr + 2) * 2 ^ 16 + mem (addr + 3) * 2 ^ 24

/-- Source: the pointer fields of `class ARM64XEmitter`. -/
structure ARM64XEmitter where
  m_code : Nat
  m_startcode : Nat
  m_lastCacheFlushEnd : Nat
  deriving DecidableEq

/-- Source: `ARM64XEmitter(u8* code_ptr)`. -/
def ARM64XEmitter.new (code_ptr : Nat) : ARM64XEmitter :=
  { m_code := code_ptr, m_lastCacheFlushEnd := code_ptr, m_startcode := code_ptr }

/-- Source: `inline void Write32(u32 value) { *(u32*)m_code = value; m_code += 4; }`,
acting on the emitter and on the memory its cursor points into. -/
def ARM64XEmitter.Write32 (s : ARM64XEmitter × Memory) (value : Nat) :
    ARM64XEmitter × Memory :=
  let mem := store_u32 s.2 s.1.m_code value
  let e := { s.1 with m_code := s.1.m_code + 4 }
  (e, mem)

/-- Successive `Write32` calls, one per word, in list order. -/
def ARM64XEmitter.Write32s (s : ARM64XEmitter × Memory) (values : List Nat) :
    ARM64XEmitter × Memory :=
  values.foldl ARM64XEmitter.Write32 s

/-! ## Code block: `PoisonMemory` -/

/-- Source: the loop `while (ptr < maxptr) *ptr++ = 0xD4200000;` of `PoisonMemory`, with
`ptr` and `maxptr` as byte addresses (`ptr++` on a `u32*` advances by 4). `fuel` bounds
the number of iterations; `none` means the bound was reached with the loop still
running. -/
def PoisonMemory_loop : Nat → Memory → Nat → Nat → Option Memory
  | 0, mem, ptr, maxptr => if ptr < maxptr then none else some mem
  | fuel + 1, mem, ptr, maxptr =>
    if ptr < maxptr then
      PoisonMemory_loop fuel (store_u32 mem ptr 0xD4200000) (ptr + 4) maxptr
    else
      some mem

/-- Source: `ARM64CodeBlock::PoisonMemory`. `region` (a `u8*`) and `region_size` are
fields of the base class `CodeBlock`, whose header is not among the sources; they are
taken as parameters. `(u32*)region + region_size` is arithmetic on a `u32*`, so `maxptr`
lies `region_size` elements of 4 bytes after `region`. The loop advances by one element
per iteration, so `region_size` iterations are enough fuel. -/
def PoisonMemory (mem : Memory) (region region_size : Nat) : Option Memory :=
  let ptr := region
  let maxptr := region + 4 * region_size
  PoisonMemory_loop region_size mem ptr maxptr

/-! ## Scaled memory index -/

/-- Source: the comment in `ArithOption(ARM64Reg Rd, bool index)` listing the left shift
of an index register per access size in bits: "8-bit: Index does nothing, 16-bit: Index
LSL 1, 32-bit: Index LSL 2, 64-bit: Index LSL 3", that is log2 of the size in bytes. -/
def indexShiftOfSize : Nat → Option Nat
  | 8 => some 0
  | 16 => some 1
  | 32 => some 2
  | 64 => some 3
  | _ => none

/-- Modelled from the spec: the left shift that the operand bits `data` of an index
register stand for in a register-offset load or store of `size` bits. The encoder of that
form, `EncodeLoadStoreRegisterOffset`, is declared only. The spec has the shift of a
scaled index set "to a fixed per-access-size code (communicated separately by the
caller's access-size context) or zero": in the ISA word of the form bit 12, directly
below the extend code at bits 13..15, is the scale flag; when it is set the index is
shifted left by log2 of the access size in bytes, when it is clear the index is not
shifted. The result is `none` for a `size` that is no access size. -/
def indexShiftAmount (data : Nat) (size : Nat) : Option Nat :=
  match indexShiftOfSize size with
  | none => none
  | some k => some (if data.testBit 12 then k else 0)

/-! ## Integer instruction emitter: add/subtract (register)

The member functions below are declared in `Arm64Emitter.h` and defined in
`Arm64Emitter.cpp`, which is not among the sources. -/

/-- Modelled from the spec: the precondition check of an instruction encoder. The
encoders are defined in `Arm64Emitter.cpp`, which is not among the sources; the spec has
an operand outside the contract "fail with a diagnostic assertion", "an immediate, loud,
non-recoverable diagnostic", "before any byte is written". A check that holds does
nothing; a check that fails ends the call with the message. -/
def assert_msg (cond : Bool) (msg : String) : Except String Unit :=
  if cond then .ok () else .error msg

/-- Modelled from the spec: `ARM64XEmitter::EncodeArithmeticInst`, of which only the
declaration is present. The spec asks for "exactly the ISA-defined 32-bit encoding",
appended through the code buffer, and for a diagnostic assertion on "register-width
mismatch between operands that must share width". The ISA word of add/subtract
(register) has the size bit at bit 31 (set for a 64-bit destination), the operation
`instenc` at bit 30 (0 add, 1 subtract), the set-flags bit at bit 29, the opcode `01011`
at bits 24..28, bit 21 set for the extended-register form, `Rm` at bits 16..20, the
operand bits of `GetData` (bits 10..15 and 22..23), `Rn` at bits 5..9 and `Rd` at bits
0..4. An operand whose `GetData` passes its failed assertion is the "malformed operand
descriptor" of the spec and ends the call like a failed check. -/
def ARM64XEmitter.EncodeArithmeticInst (s : ARM64XEmitter × Memory) (instenc : Nat)
    (flags : Bool) (Rd Rn Rm : ARM64Reg) (Opt : ArithOption) :
    Except String (ARM64XEmitter × Memory) := do
  let b64Bit := Is64Bit Rd
  assert_msg (Is64Bit Rn == b64Bit) "EncodeArithmeticInst: Rd and Rn differ in width"
  assert_msg (Opt.GetType == .TYPE_EXTENDEDREG || Is64Bit Rm == b64Bit)
    "EncodeArithmeticInst: Rd and Rm differ in width"
  let data ← match Opt.GetData with
    | .ok data => pure data
    | .asserted msg _ => throw msg
  let extended := if Opt.GetType = .TYPE_EXTENDEDREG then 1 else 0
  return ARM64XEmitter.Write32 s
    ((b64Bit.toNat <<< 31) ||| (instenc <<< 30) ||| (flags.toNat <<< 29) |||
      (0x0B <<< 24) ||| (extended <<< 21) ||| (DecodeReg Rm <<< 16) ||| data |||
      (DecodeReg Rn <<< 5) ||| DecodeReg Rd)

/-- Modelled from the spec: `ADD(Rd, Rn, Rm, Option)`, declared only; the add member of
the add/subtract (register) family, not setting flags. -/
def ARM64XEmitter.ADD_option (s : ARM64XEmitter × Memory) (Rd Rn Rm : ARM64Reg)
    (Opt : ArithOption) : Except String (ARM64XEmitter × Memory) :=
  ARM64XEmitter.EncodeArithmeticInst s 0 false Rd Rn Rm Opt

/-- Modelled from the spec: `ADD(Rd, Rn, Rm)`, declared only; the form with "no
shift/extend", that is with the no-shift operand `ArithOption(Rd, ST_LSL, 0)`. `uninit`
is the storage the temporary operand is built in. -/
def ARM64XEmitter.ADD (s : ARM64XEmitter × Memory) (uninit : ArithOption)
    (Rd Rn Rm : ARM64Reg) : Except String (ARM64XEmitter × Memory) :=
  ARM64XEmitter.ADD_option s Rd Rn Rm (ArithOption.ArithOption_shift uninit Rd .ST_LSL 0)

/-! ## Branch emission and fixups

`struct FixupBranch` is in the header; the branch member functions are declared there
and defined in `Arm64Emitter.cpp`, which is not among the sources. -/

/-- Modelled from the spec: `CCFlags`, declared in `Common/ArmCommon.h` (not among the
sources): one of the "16 standard condition codes", "a 4-bit ISA field". -/
abbrev CCFlags := Fin 16

/-- Source: `struct FixupBranch`; `ptr` is the patch location, `type` the branch class
(0 CBZ, 1 CBNZ, 2 B conditional, 3 TBZ, 4 TBNZ, 5 B unconditional, 6 BL). -/
structure FixupBranch where
  ptr : Nat
  type : Nat
  cond : CCFlags
  bit : Nat
  reg : ARM64Reg

/-- Modelled from the spec: the range validation of a branch displacement, which must
fit the signed field width of the branch class. `distance` is the byte displacement from the
branch to its target; the field holds it as a signed word offset of `bits` bits, so it
fits when it is a multiple of 4 and `distance / 4` lies in `[-2^(bits-1), 2^(bits-1))`. -/
def IsInRangeImm (bits : Nat) (distance : Int) : Bool :=
  distance % 4 == 0 &&
    (decide (-(2 : Int) ^ (bits - 1) ≤ distance / 4) && decide (distance / 4 < (2 : Int) ^ (bits - 1)))

/-- Modelled from the spec: the displacement field of a branch word, the word offset
`distance / 4` as a two-complement value of `bits` bits. -/
def MaskImm (bits : Nat) (distance : Int) : Nat :=
  ((distance / 4) % (2 : Int) ^ bits).toNat

/-- Modelled from the spec: `EncodeCompareBranchInst(op, Rt, ptr)`, declared only; the
known-target form of compare-and-branch (`op` 0 CBZ, 1 CBNZ). It "computes the
displacement immediately, validates it fits" the signed 19-bit field and "encodes the
word in one step": size bit at bit 31, `011010` at bits 25..30, `op` at bit 24, the
displacement at bits 5..23, `Rt` at bits 0..4. -/
def ARM64XEmitter.EncodeCompareBranchInst (s : ARM64XEmitter × Memory) (op : Nat)
    (Rt : ARM64Reg) (ptr : Nat) : Except String (ARM64XEmitter × Memory) := do
  let b64Bit := Is64Bit Rt
  let distance : Int := (ptr : Int) - (s.1.m_code : Int)
  assert_msg (IsInRangeImm 19 distance) "EncodeCompareBranchInst: distance out of range"
  return ARM64XEmitter.Write32 s
    ((b64Bit.toNat <<< 31) ||| (0x34 <<< 24) ||| (op <<< 24) |||
      (MaskImm 19 distance <<< 5) ||| DecodeReg Rt)

/-- Modelled from the spec: `EncodeTestBranchInst(op, Rt, bits, ptr)`, declared only; the
known-target form of test-bit-and-branch (`op` 0 TBZ, 1 TBNZ) with a signed 14-bit
field: bit 5 of the tested bit index at bit 31, `011011` at bits 25..30, `op` at bit 24,
the low five bits of the bit index at bits 19..23, the displacement at bits 5..18, `Rt`
at bits 0..4. -/
def ARM64XEmitter.EncodeTestBranchInst (s : ARM64XEmitter × Memory) (op : Nat)
    (Rt : ARM64Reg) (bits : Nat) (ptr : Nat) : Except String (ARM64XEmitter × Memory) := do
  let distance : Int := (ptr : Int) - (s.1.m_code : Int)
  assert_msg (IsInRangeImm 14 distance) "EncodeTestBranchInst: distance out of range"
  return ARM64XEmitter.Write32 s
    (((bits &&& 0x20) <<< 26) ||| (0x36 <<< 24) ||| (op <<< 24) |||
      ((bits &&& 0x1F) <<< 19) ||| (MaskImm 14 distance <<< 5) ||| DecodeReg Rt)

/-- Modelled from the spec: `EncodeUnconditionalBranchInst(op, ptr)`, declared only; the
known-target form of the unconditional branch (`op` 0 B, 1 BL) with a signed 26-bit
field: `op` at bit 31, `00101` at bits 26..30, the displacement at bits 0..25. -/
def ARM64XEmitter.EncodeUnconditionalBranchInst (s : ARM64XEmitter × Memory) (op : Nat)
    (ptr : Nat) : Except String (ARM64XEmitter × Memory) := do
  let distance : Int := (ptr : Int) - (s.1.m_code : Int)
  assert_msg (IsInRangeImm 26 distance)
    "EncodeUnconditionalBranchInst: distance out of range"
  return ARM64XEmitter.Write32 s ((op <<< 31) ||| (0x05 <<< 26) ||| MaskImm 26 distance)

/-- Modelled from the spec: `CBZ(Rt, ptr)`, declared only. -/
def ARM64XEmitter.CBZ_ptr (s : ARM64XEmitter × Memory) (Rt : ARM64Reg) (ptr : Nat) :
    Except String (ARM64XEmitter × Memory) :=
  ARM64XEmitter.EncodeCompareBranchInst s 0 Rt ptr

/-- Modelled from the spec: `CBNZ(Rt, ptr)`, declared only. -/
def ARM64XEmitter.CBNZ_ptr (s : ARM64XEmitter × Memory) (Rt : ARM64Reg) (ptr : Nat) :
    Except String (ARM64XEmitter × Memory) :=
  ARM64XEmitter.EncodeCompareBranchInst s 1 Rt ptr

/-- Modelled from the spec: `B(CCFlags cond, const void* ptr)`, declared only; the
known-target conditional branch. The displacement from the cursor to `ptr` is validated
against the signed 19-bit word-offset field before anything is written ("a precondition
failure before any byte is written"); the word has `01010100` at bits 24..31, the
displacement at bits 5..23 and the condition code at bits 0..3. -/
def ARM64XEmitter.B_cond_ptr (s : ARM64XEmitter × Memory) (cond : CCFlags) (ptr : Nat) :
    Except String (ARM64XEmitter × Memory) := do
  let distance : Int := (ptr : Int) - (s.1.m_code : Int)
  assert_msg (IsInRangeImm 19 distance) "B: distance out of range"
  return ARM64XEmitter.Write32 s ((0x54 <<< 24) ||| (MaskImm 19 distance <<< 5) ||| cond.val)

/-- Modelled from the spec: `TBZ(Rt, bits, ptr)`, declared only. -/
def ARM64XEmitter.TBZ_ptr (s : ARM64XEmitter × Memory) (Rt : ARM64Reg) (bits : Nat)
    (ptr : Nat) : Except String (ARM64XEmitter × Memory) :=
  ARM64XEmitter.EncodeTestBranchInst s 0 Rt bits ptr

/-- Modelled from the spec: `TBNZ(Rt, bits, ptr)`, declared only. -/
def ARM64XEmitter.TBNZ_ptr (s : ARM64XEmitter × Memory) (Rt : ARM64Reg) (bits : Nat)
    (ptr : Nat) : Except String (ARM64XEmitter × Memory) :=
  ARM64XEmitter.EncodeTestBranchInst s 1 Rt bits ptr

/-- Modelled from the spec: `B(const void* ptr)`, declared only. -/
def ARM64XEmitter.B_ptr (s : ARM64XEmitter × Memory) (ptr : Nat) :
    Except String (ARM64XEmitter × Memory) :=
  ARM64XEmitter.EncodeUnconditionalBranchInst s 0 ptr

/-- Modelled from the spec: `BL(const void* ptr)`, declared only. -/
def ARM64XEmitter.BL_ptr (s : ARM64XEmitter × Memory) (ptr : Nat) :
    Except String (ARM64XEmitter × Memory) :=
  ARM64XEmitter.EncodeUnconditionalBranchInst s 1 ptr

/-- Modelled from the spec: the word of a pending branch as a function of its ledger
entry and a displacement: "all other bits (opcode, condition, register, bit-index) are
re-derived from the ledger entry, not read back from memory". The classes are those of
`FixupBranch.type`; an entry of no class gives 0. -/
def FixupBranch.inst (branch : FixupBranch) (distance : Int) : Nat :=
  match branch.type with
  | 0 => -- CBZ
    ((Is64Bit branch.reg).toNat <<< 31) ||| (0x1A <<< 25) ||| (0 <<< 24) |||
      (MaskImm 19 distance <<< 5) ||| DecodeReg branch.reg
  | 1 => -- CBNZ
    ((Is64Bit branch.reg).toNat <<< 31) ||| (0x1A <<< 25) ||| (1 <<< 24) |||
      (MaskImm 19 distance <<< 5) ||| DecodeReg branch.reg
  | 2 => -- B (conditional)
    (0x2A <<< 25) ||| (MaskImm 19 distance <<< 5) ||| branch.cond.val
  | 3 => -- TBZ
    ((branch.bit &&& 0x20) <<< 26) ||| (0x1B <<< 25) ||| (0 <<< 24) |||
      ((branch.bit &&& 0x1F) <<< 19) ||| (MaskImm 14 distance <<< 5) ||| DecodeReg branch.reg
  | 4 => -- TBNZ
    ((branch.bit &&& 0x20) <<< 26) ||| (0x1B <<< 25) ||| (1 <<< 24) |||
      ((branch.bit &&& 0x1F) <<< 19) ||| (MaskImm 14 distance <<< 5) ||| DecodeReg branch.reg
  | 5 => -- B (unconditional)
    (0x05 <<< 26) ||| MaskImm 26 distance
  | 6 => -- BL (unconditional)
    (0x25 <<< 26) ||| MaskImm 26 distance
  | _ => 0

/-- Modelled from the spec: the width in bits of the signed word-offset field of each
branch class: 19 for compare and conditional branches ("±1MiB-scale"), 14 for test-bit
branches ("±32KiB-scale"), 26 for unconditional branches ("±128MiB-scale"). -/
def FixupBranch.immBits (branch : FixupBranch) : Option Nat :=
  match branch.type with
  | 0 => some 19
  | 1 => some 19
  | 2 => some 19
  | 3 => some 14
  | 4 => some 14
  | 5 => some 26
  | 6 => some 26
  | _ => none

/-- Modelled from the spec: `SetJumpTarget(FixupBranch const& branch)`, declared only.
The target is the current cursor. It "recomputes the displacement from
target - entry.location, re-validates range, and overwrites" the word at the patch
location; the cursor does not move. -/
def ARM64XEmitter.SetJumpTarget (s : ARM64XEmitter × Memory) (branch : FixupBranch) :
    Except String (ARM64XEmitter × Memory) := do
  let distance : Int := (s.1.m_code : Int) - (branch.ptr : Int)
  match branch.immBits with
  | none => throw "SetJumpTarget: invalid branch type"
  | some bits =>
    assert_msg (IsInRangeImm bits distance) "SetJumpTarget: distance out of range"
    return (s.1, store_u32 s.2 branch.ptr (branch.inst distance))

/-- Modelled from the spec: `FixupBranch CBZ(ARM64Reg Rt)`, declared only. With the
target unknown the routine "writes a provisional word (displacement field zero) at the
current cursor, advances the cursor, and returns a ledger entry capturing the
class/condition/bit/register and the just-written location". `uninit` is the storage the
entry is built in. -/
def ARM64XEmitter.CBZ (s : ARM64XEmitter × Memory) (uninit : FixupBranch) (Rt : ARM64Reg) :
    FixupBranch × (ARM64XEmitter × Memory) :=
  let branch := { uninit with ptr := s.1.m_code, type := 0, reg := Rt }
  (branch, ARM64XEmitter.Write32 s (branch.inst 0))

/-- Modelled from the spec: `FixupBranch CBNZ(ARM64Reg Rt)`, declared only. -/
def ARM64XEmitter.CBNZ (s : ARM64XEmitter × Memory) (uninit : FixupBranch) (Rt : ARM64Reg) :
    FixupBranch × (ARM64XEmitter × Memory) :=
  let branch := { uninit with ptr := s.1.m_code, type := 1, reg := Rt }
  (branch, ARM64XEmitter.Write32 s (branch.inst 0))

/-- Modelled from the spec: `FixupBranch B(CCFlags cond)`, declared only. -/
def ARM64XEmitter.B_cond (s : ARM64XEmitter × Memory) (uninit : FixupBranch) (cond : CCFlags) :
    FixupBranch × (ARM64XEmitter × Memory) :=
  let branch := { uninit with ptr := s.1.m_code, type := 2, cond := cond }
  (branch, ARM64XEmitter.Write32 s (branch.inst 0))

/-- Modelled from the spec: `FixupBranch TBZ(ARM64Reg Rt, u8 bit)`, declared only. -/
def ARM64XEmitter.TBZ (s : ARM64XEmitter × Memory) (uninit : FixupBranch) (Rt : ARM64Reg)
    (bit : Nat) : FixupBranch × (ARM64XEmitter × Memory) :=
  let branch := { uninit with ptr := s.1.m_code, type := 3, reg := Rt, bit := bit }
  (branch, ARM64XEmitter.Write32 s (branch.inst 0))

/-- Modelled from the spec: `FixupBranch TBNZ(ARM64Reg Rt, u8 bit)`, declared only. -/
def ARM64XEmitter.TBNZ (s : ARM64XEmitter × Memory) (uninit : FixupBranch) (Rt : ARM64Reg)
    (bit : Nat) : FixupBranch × (ARM64XEmitter × Memory) :=
  let branch := { uninit with ptr := s.1.m_code, type := 4, reg := Rt, bit := bit }
  (branch, ARM64XEmitter.Write32 s (branch.inst 0))

/-- Modelled from the spec: `FixupBranch B()`, declared only. -/
def ARM64XEmitter.B (s : ARM64XEmitter × Memory) (uninit : FixupBranch) :
    FixupBranch × (ARM64XEmitter × Memory) :=
  let branch := { uninit with ptr := s.1.m_code, type := 5 }
  (branch, ARM64XEmitter.Write32 s (branch.inst 0))

/-- Modelled from the spec: `FixupBranch BL()`, declared only. -/
def ARM64XEmitter.BL (s : ARM64XEmitter × Memory) (uninit : FixupBranch) :
    FixupBranch × (ARM64XEmitter × Memory) :=
  let branch := { uninit with ptr := s.1.m_code, type := 6 }
  (branch, ARM64XEmitter.Write32 s (branch.inst 0))

/-- The seven branch classes of the fixup round trip, each with the operands of its
emitting call. -/
inductive BranchClass where
  | CBZ (Rt : ARM64Reg)
  | CBNZ (Rt : ARM64Reg)
  | B_cond (cond : CCFlags)
  | TBZ (Rt : ARM64Reg) (bit : Nat)
  | TBNZ (Rt : ARM64Reg) (bit : Nat)
  | B
  | BL

/-- The call that emits a branch of the given class with an unknown target. -/
def BranchClass.emitFixup (cls : BranchClass) (s : ARM64XEmitter × Memory)
    (uninit : FixupBranch) : FixupBranch × (ARM64XEmitter × Memory) :=
  match cls with
  | .CBZ Rt => ARM64XEmitter.CBZ s uninit Rt
  | .CBNZ Rt => ARM64XEmitter.CBNZ s uninit Rt
  | .B_cond cond => ARM64XEmitter.B_cond s uninit cond
  | .TBZ Rt bit => ARM64XEmitter.TBZ s uninit Rt bit
  | .TBNZ Rt bit => ARM64XEmitter.TBNZ s uninit Rt bit
  | .B => ARM64XEmitter.B s uninit
  | .BL => ARM64XEmitter.BL s uninit

/-- The call that emits a branch of the given class to the known target `ptr`. -/
def BranchClass.emitKnown (cls : BranchClass) (s : ARM64XEmitter × Memory) (ptr : Nat) :
    Except String (ARM64XEmitter × Memory) :=
  match cls with
  | .CBZ Rt => ARM64XEmitter.CBZ_ptr s Rt ptr
  | .CBNZ Rt => ARM64XEmitter.CBNZ_ptr s Rt ptr
  | .B_cond cond => ARM64XEmitter.B_cond_ptr s cond ptr
  | .TBZ Rt bit => ARM64XEmitter.TBZ_ptr s Rt bit ptr
  | .TBNZ Rt bit => ARM64XEmitter.TBNZ_ptr s Rt bit ptr
  | .B => ARM64XEmitter.B_ptr s ptr
  | .BL => ARM64XEmitter.BL_ptr s ptr

/-- The width of the displacement field of a branch class. -/
def BranchClass.immBits : BranchClass → Nat
  | .CBZ _ => 19
  | .CBNZ _ => 19
  | .B_cond _ => 19
  | .TBZ _ _ => 14
  | .TBNZ _ _ => 14
  | .B => 26
  | .BL => 26

/-! ## Immediate-to-register synthesis

`MOVZ`, `MOVN`, `MOVK` and `MOVI2R` are declared in the header and defined in
`Arm64Emitter.cpp`, which is not among the sources. -/

/-- Source: `enum ShiftAmount { SHIFT_0 = 0, SHIFT_16 = 1, SHIFT_32 = 2, SHIFT_48 = 3 }`. -/
inductive ShiftAmount where
  | SHIFT_0
  | SHIFT_16
  | SHIFT_32
  | SHIFT_48
  deriving DecidableEq

/-- The integer value of a `ShiftAmount` enumerator. -/
def ShiftAmount.toNat : ShiftAmount → Nat
  | .SHIFT_0 => 0
  | .SHIFT_16 => 1
  | .SHIFT_32 => 2
  | .SHIFT_48 => 3

/-- The three move-wide mnemonics declared under "Data Processing (Immediate)". -/
inductive MovWideOp where
  | MOVZ
  | MOVN
  | MOVK
  deriving DecidableEq

/-- One move-wide call `MOVZ(Rd, imm, pos)`, `MOVN(Rd, imm, pos)` or `MOVK(Rd, imm, pos)`
as declared in the header. -/
structure MovWide where
  op : MovWideOp
  Rd : ARM64Reg
  imm : Nat
  pos : ShiftAmount
  deriving DecidableEq

/-- The 16-bit chunk of `v` at position `pos`: `(v >> (16 * pos)) & 0xFFFF`. -/
def chunk16 (v : Nat) (pos : ShiftAmount) : Nat := (v >>> (16 * pos.toNat)) &&& 0xFFFF

/-- The value `v` with its 16-bit chunk at `pos` replaced by `x`. -/
def setChunk16 (v : Nat) (pos : ShiftAmount) (x : Nat) : Nat :=
  v - chunk16 v pos * 2 ^ (16 * pos.toNat) + x * 2 ^ (16 * pos.toNat)

/-- Modelled from the spec: the effect of executing one move-wide instruction on the
value `old` of its destination register, in the words of the spec for the move-wide
family: `MOVZ` loads "a 16-bit chunk with zero-fill elsewhere", `MOVN` loads a chunk with
one-fill elsewhere (the instruction carries the chunk inverted), `MOVK` is the
"keep-merge move" that replaces one chunk and keeps the others. The result is cut to the
width of the destination. -/
def MovWide.exec (i : MovWide) (old : Nat) : Nat :=
  let width := if Is64Bit i.Rd then 64 else 32
  match i.op with
  | .MOVZ => setChunk16 0 i.pos i.imm % 2 ^ width
  | .MOVN => setChunk16 (2 ^ 64 - 1) i.pos (0xFFFF - i.imm) % 2 ^ width
  | .MOVK => setChunk16 old i.pos i.imm % 2 ^ width

/-- Execution of a sequence of move-wide instructions on one destination register value,
in order. -/
def MovWide.execSeq (is : List MovWide) (old : Nat) : Nat :=
  is.foldl (fun v i => i.exec v) old

/-- Modelled from the spec: the base-fill choice of `MOVI2R`, "picking whichever of all
zero chunks or all one-filled chunks is more common" among "the four 16-bit chunks of the
constant"; `true` is the one-fill, chosen when more chunks are `0xFFFF` than are 0. -/
def MOVI2R_one_fill (imm : Nat) : Bool :=
  let parts := [ShiftAmount.SHIFT_0, .SHIFT_16, .SHIFT_32, .SHIFT_48]
  let zeros := parts.countP (fun p => chunk16 imm p == 0)
  let ones := parts.countP (fun p => chunk16 imm p == 0xFFFF)
  decide (zeros < ones)

/-- Modelled from the spec: the chunks of the constant that differ from the chosen
fill, in ascending position. -/
def MOVI2R_differing (imm : Nat) : List ShiftAmount :=
  let fill := if MOVI2R_one_fill imm then 0xFFFF else 0
  [ShiftAmount.SHIFT_0, .SHIFT_16, .SHIFT_32, .SHIFT_48].filter (fun p => chunk16 imm p != fill)

/-- Modelled from the spec: the "base instruction" of `MOVI2R` for the chunk at `p`: it
loads that chunk "with zero/one-fill elsewhere", `MOVZ` with the chunk for the zero-fill
and `MOVN` with the chunk inverted for the one-fill. -/
def MOVI2R_base (Rd : ARM64Reg) (imm : Nat) (p : ShiftAmount) : MovWide :=
  if MOVI2R_one_fill imm then MovWide.mk .MOVN Rd (0xFFFF - chunk16 imm p) p
  else MovWide.mk .MOVZ Rd (chunk16 imm p) p

/-- Modelled from the spec: the "merge instruction" of `MOVI2R` for the chunk at `p`, a
`MOVK` with that chunk. -/
def MOVI2R_merge (Rd : ARM64Reg) (imm : Nat) (p : ShiftAmount) : MovWide :=
  MovWide.mk .MOVK Rd (chunk16 imm p) p

/-- Modelled from the spec: `MOVI2R(Rd, imm, optimize)`, declared only ("Wrapper around
MOVZ+MOVK"), as the sequence of move-wide calls it makes. With `optimize` it scans the
four chunks, picks the fill, and emits "one base instruction for the first differing
chunk and one merge instruction per remaining differing chunk" (when no chunk differs,
the base instruction for chunk 0); without it, it emits "the full worst case": the base
`MOVZ` for chunk 0 and a `MOVK` for each other chunk. -/
def ARM64XEmitter.MOVI2R (Rd : ARM64Reg) (imm : Nat) (optimize : Bool) : List MovWide :=
  if optimize then
    match MOVI2R_differing imm with
    | [] => [MOVI2R_base Rd imm .SHIFT_0]
    | p :: rest => MOVI2R_base Rd imm p :: rest.map (MOVI2R_merge Rd imm)
  else
    MovWide.mk .MOVZ Rd (chunk16 imm .SHIFT_0) .SHIFT_0 ::
      [ShiftAmount.SHIFT_16, .SHIFT_32, .SHIFT_48].map (MOVI2R_merge Rd imm)

end Arm64Gen

/-!
# ControllerInterface: device list and output detection

A shallow embedding of `ControllerInterface::AddDevice` and
`ControllerInterface::OutputReference::Detect`
(`Source/Core/InputCommon/ControllerInterface/ControllerInterface.cpp`).
-/

namespace ControllerInterface

/-- The part of a `ciface::Core::Device` object that `AddDevice` reads and writes. The
class is declared in `Device.h`, which is not among the sources: `source`, `name` and
`id` are what `GetSource()`, `GetName()` and `GetId()` return, and `SetId` replaces `id`.
The `int` id is an integer without overflow; the counter of `AddDevice` never exceeds the
number of entries of the list. -/
structure Device where
  source : String
  name : String
  id : Int
  deriving DecidableEq

/-- The identity of a device: its `(source, name, id)` triple. -/
def Device.key (d : Device) : String × String × Int := (d.source, d.name, d.id)

/-- The `Device` objects by address: what a `std::shared_ptr<ciface::Core::Device>`
holding the address points to. The entries of `m_devices` and the argument of `AddDevice`
are such addresses; two of them that are equal are one object, so a write through one is
seen through the other. `AddDevice` dereferences its argument and every entry without a
check, so all of them point to an object. -/
abbrev Objects := Nat → Device

/-- Source: the predicate handed to `std::find_if` in `AddDevice`:
`d->GetSource() == device->GetSource() && d->GetName() == device->GetName() &&
d->GetId() == id`, with the pointers `d` and `device` followed in `objs`. -/
def AddDevice_pred (objs : Objects) (device : Nat) (id : Int) (d : Nat) : Bool :=
  (objs d).source == (objs device).source && (objs d).name == (objs device).name &&
    (objs d).id == id

/-- Source: the loop of `AddDevice`, `while (true) { it = std::find_if(...);
if (it == m_devices.end()) break; else id++; }`, returning the `id` at the `break`.
`fuel` bounds the number of iterations; `none` means the bound was reached with the loop
still running. -/
def AddDevice_loop (objs : Objects) (m_devices : List Nat) (device : Nat) :
    Nat → Int → Option Int
  | 0, _ => none
  | fuel + 1, id =>
    match m_devices.find? (AddDevice_pred objs device id) with
    | none => some id
    | some _ => AddDevice_loop objs m_devices device fuel (id + 1)

/-- Source: `device->SetId(id)`: the object that `device` points to gets the id; every
other object stays as it is. -/
def SetId (objs : Objects) (device : Nat) (id : Int) : Objects :=
  fun p => if p = device then { objs p with id := id } else objs p

/-- Source: `ControllerInterface::AddDevice`, under its lock: the objects and the content
of `m_devices` after the call. The loop starts at `id = 0`; one iteration more than there
are entries is enough fuel. Then `device->SetId(id)` writes the object of `device`,
whether or not an entry of the list points to it too, and
`m_devices.emplace_back(std::move(device))` appends the pointer. -/
def AddDevice (objs : Objects) (m_devices : List Nat) (device : Nat) :
    Option (Objects × List Nat) :=
  match AddDevice_loop objs m_devices device (m_devices.length + 1) 0 with
  | none => none
  | some id => some (SetId objs device id, m_devices ++ [device])

/-- The identities in the list: the `(source, name, id)` triple of the object of each
entry of `m_devices`, in order. -/
def keys (objs : Objects) (m_devices : List Nat) : List (String × String × Int) :=
  m_devices.map (fun p => (objs p).key)

/-- Source: the loop `while (ms > (slept += 10)) Common::SleepCurrentThread(10);` of
`OutputReference::Detect`; `slept` is an `unsigned int`, so `slept += 10` wraps at
`2^32`. The result is the number of sleeps made, counted in `sleeps`; `fuel` bounds the
number of iterations and `none` means the bound was reached with the loop still
running. -/
def OutputReference.Detect_loop (ms : Nat) : Nat → Nat → Nat → Option Nat
  | 0, _, _ => none
  | fuel + 1, slept, sleeps =>
    let slept := (slept + 10) % 2 ^ 32
    if ms > slept then OutputReference.Detect_loop ms fuel slept (sleeps + 1)
    else some sleeps

/-- What a call of `OutputReference::Detect` did: the pointer it returned (`none` is
`nullptr`), the values it passed to `State`, in order, and the number of 10 ms sleeps. -/
structure DetectResult where
  ret : Option Nat
  states : List Nat
  sleeps : Nat
  deriving DecidableEq

/-- Source: `ControllerInterface::OutputReference::Detect(ms, device)`. `BoundCount` is
the value of `BoundCount()` (declared in the header, not among the sources); `device` is
ignored by the function. `none` means the wait loop did not end within `fuel`
iterations. -/
def OutputReference.Detect (fuel : Nat) (BoundCount : Nat) (ms : Nat) : Option DetectResult :=
  if BoundCount > 0 then
    match OutputReference.Detect_loop ms fuel 0 0 with
    | none => none
    | some sleeps => some { ret := none, states := [1, 0], sleeps := sleeps }
  else
    some { ret := none, states := [], sleeps := 0 }

end ControllerInterface

/-!
# ES device: IOCTL_ES_READCONTENT

A shallow embedding of the `IOCTL_ES_READCONTENT` case of
`CWII_IPC_HLE_Device_es::IOCtlV` (`Source/Core/Core/Src/IPC_HLE/WII_IPC_HLE_Device_es.cpp`).
-/

namespace CWII_IPC_HLE_Device_es

/-- Source: `SContentAccess& rContent`, as far as the case reads and writes it:
`m_Position` and the size `m_pContent->m_Size` of the content it refers to. Both are
declared in headers that are not among the sources; they are taken as `u32`, the type of
the values moved in and out of them in this file (`Size`, `Addr`, `Memory::Write_U32`). -/
structure SContentAccess where
  m_Position : Nat
  m_Size : Nat
  deriving DecidableEq

/-- What the case did: the content access afterwards, the length handed to `memcpy` (0
when `memcpy` is not called) and the `Size` written back to `_CommandAddress + 0x4`. -/
structure ReadContent where
  rContent : SContentAccess
  copied : Nat
  Size : Nat
  deriving DecidableEq

/-- Source: the `IOCTL_ES_READCONTENT` case of `IOCtlV`, from the clamp of `Size` to the
write-back. `Size` is the `u32` payload size; the sum `m_Position + Size`, the difference
`m_Size - m_Position` and `m_Position += Size` are `u32` operations and wrap at `2^32`. -/
def IOCtlV_READCONTENT (rContent : SContentAccess) (Size : Nat) : ReadContent :=
  let Size :=
    if (rContent.m_Position + Size) % 2 ^ 32 > rContent.m_Size then
      (rContent.m_Size + 2 ^ 32 - rContent.m_Position) % 2 ^ 32
    else
      Size
  if Size > 0 then
    { rContent := { rContent with m_Position := (rContent.m_Position + Size) % 2 ^ 32 },
      copied := Size, Size := Size }
  else
    { rContent := rContent, copied := 0, Size := Size }

end CWII_IPC_HLE_Device_es

namespace Arm64Gen

/-! ## Register descriptor: bit-level lemmas -/

theorem testBit_lit_high {m k i : Nat} (hm : m < 2 ^ k) (hi : k ≤ i) : m.testBit i = false :=
  Nat.testBit_lt_two_pow (Nat.lt_of_lt_of_le hm (Nat.pow_le_pow_right (by decide) hi))

theorem not32_0xC0 : not32 0xC0 = 0xFFFFFF3F := by decide

theorem and_ne_zero_iff_testBit (r k : Nat) : ((r &&& 2 ^ k) != 0) = r.testBit k := by
  have h : r &&& 2 ^ k = if r.testBit k then 2 ^ k else 0 := by
    apply Nat.eq_of_testBit_eq
    intro i
    rw [Nat.testBit_and, Nat.testBit_two_pow]
    by_cases hk : k = i
    · subst hk
      cases hb : r.testBit k <;> simp [Nat.testBit_two_pow_self]
    · cases hb : r.testBit k <;> simp [hk, Nat.testBit_two_pow]
  rw [h]
  cases hb : r.testBit k
  · simp
  · have : 2 ^ k ≠ 0 := Nat.pos_iff_ne_zero.mp (Nat.two_pow_pos k)
    simp [this]

theorem Is64Bit_eq_testBit (r : ARM64Reg) : Is64Bit r = r.testBit 5 :=
  and_ne_zero_iff_testBit r 5

theorem IsSingle_eq_testBit (r : ARM64Reg) : IsSingle r = r.testBit 6 :=
  and_ne_zero_iff_testBit r 6

theorem IsDouble_eq_testBit (r : ARM64Reg) : IsDouble r = r.testBit 7 :=
  and_ne_zero_iff_testBit r 7

theorem and_0xC0 (r : Nat) :
    r &&& 0xC0 = (if r.testBit 6 then 0x40 else 0) + (if r.testBit 7 then 0x80 else 0) := by
  apply Nat.eq_of_testBit_eq
  intro i
  rw [Nat.testBit_and]
  rcases Nat.lt_or_ge i 8 with h | h
  · cases h6 : r.testBit 6 <;> cases h7 : r.testBit 7 <;> interval_cases i <;>
      (try simp only [h6, h7]) <;> simp [Nat.testBit]
  · rw [testBit_lit_high (m := 0xC0) (k := 8) (by decide) h, Bool.and_false]
    symm
    apply testBit_lit_high (k := 8) _ h
    cases r.testBit 6 <;> cases r.testBit 7 <;> decide

theorem IsQuad_eq_testBit (r : ARM64Reg) : IsQuad r = (r.testBit 6 && r.testBit 7) := by
  unfold IsQuad
  rw [and_0xC0]
  cases r.testBit 6 <;> cases r.testBit 7 <;> decide

theorem IsVector_eq_testBit (r : ARM64Reg) : IsVector r = (r.testBit 6 || r.testBit 7) := by
  unfold IsVector
  rw [and_0xC0]
  cases r.testBit 6 <;> cases r.testBit 7 <;> decide

theorem DecodeReg_eq_mod (r : ARM64Reg) : DecodeReg r = r % 32 :=
  Nat.and_pow_two_sub_one_eq_mod r 5

theorem testBit_EncodeRegTo64 (r : ARM64Reg) (i : Nat) :
    (EncodeRegTo64 r).testBit i = (r.testBit i || decide (i = 5)) := by
  unfold EncodeRegTo64
  rw [Nat.testBit_or, show (0x20 : Nat) = 2 ^ 5 from rfl, Nat.testBit_two_pow]
  congr 1
  simp [eq_comm]

theorem and_0x1F_congr {a b : Nat} (h : ∀ i, i < 5 → a.testBit i = b.testBit i) :
    a &&& 0x1F = b &&& 0x1F := by
  apply Nat.eq_of_testBit_eq
  intro i
  rw [Nat.testBit_and, Nat.testBit_and]
  rcases Nat.lt_or_ge i 5 with hi | hi
  · rw [h i hi]
  · rw [testBit_lit_high (m := 0x1F) (k := 5) (by decide) hi, Bool.and_false, Bool.and_false]

theorem testBit_EncodeRegToDouble_low (r : ARM64Reg) (i : Nat) (hi : i < 5) :
    (EncodeRegToDouble r).testBit i = r.testBit i := by
  unfold EncodeRegToDouble
  rw [not32_0xC0, Nat.testBit_or, Nat.testBit_and]
  interval_cases i <;> simp [Nat.testBit]

theorem testBit_EncodeRegToQuad_low (r : ARM64Reg) (i : Nat) (hi : i < 5) :
    (EncodeRegToQuad r).testBit i = r.testBit i := by
  unfold EncodeRegToQuad
  rw [Nat.testBit_or]
  interval_cases i <;> simp [Nat.testBit]

theorem DecodeReg_lt (r : ARM64Reg) : DecodeReg r < 32 := by
  rw [DecodeReg_eq_mod]
  exact Nat.mod_lt _ (by decide)

/-- C6: every class-encode helper preserves the register index read back by `DecodeReg`,
and `DecodeReg ∘ EncodeRegTo64 ∘ DecodeReg = DecodeReg`. -/
theorem DecodeReg_EncodeReg (r : ARM64Reg) :
    DecodeReg (EncodeRegTo64 r) = DecodeReg r ∧
    DecodeReg (EncodeRegToDouble r) = DecodeReg r ∧
    DecodeReg (EncodeRegToQuad r) = DecodeReg r ∧
    DecodeReg (EncodeRegTo64 (DecodeReg r)) = DecodeReg r := by
  have h64 : ∀ x : ARM64Reg, DecodeReg (EncodeRegTo64 x) = DecodeReg x := by
    intro x
    apply and_0x1F_congr
    intro i hi
    rw [testBit_EncodeRegTo64]
    have : ¬ i = 5 := by omega
    simp [this]
  refine ⟨h64 r, ?_, ?_, ?_⟩
  · exact and_0x1F_congr (testBit_EncodeRegToDouble_low r)
  · exact and_0x1F_congr (testBit_EncodeRegToQuad_low r)
  · rw [h64]
    unfold DecodeReg
    rw [Nat.and_assoc, Nat.and_self]

/-- C7: the result of each class-encode helper tests positive for its class. -/
theorem EncodeReg_class (r : ARM64Reg) :
    Is64Bit (EncodeRegTo64 r) = true ∧
    IsDouble (EncodeRegToDouble r) = true ∧
    IsQuad (EncodeRegToQuad r) = true := by
  refine ⟨?_, ?_, ?_⟩
  · rw [Is64Bit_eq_testBit, testBit_EncodeRegTo64]
    simp
  · rw [IsDouble_eq_testBit]
    unfold EncodeRegToDouble
    rw [Nat.testBit_or]
    simp [Nat.testBit]
  · rw [IsQuad_eq_testBit]
    unfold EncodeRegToQuad
    rw [Nat.testBit_or, Nat.testBit_or]
    simp [Nat.testBit]

/-- C8: the predicates are the bit tests of the documented tag layout: `Is64Bit` is bit 5,
`IsSingle` bit 6, `IsDouble` bit 7, `IsQuad` bits 6 and 7 together, `IsVector` bit 6 or
bit 7, and `DecodeReg` is the low five bits, a value below 32 with no class bit set. -/
theorem predicates_tag_layout (r : ARM64Reg) :
    Is64Bit r = r.testBit 5 ∧
    IsSingle r = r.testBit 6 ∧
    IsDouble r = r.testBit 7 ∧
    IsQuad r = (r.testBit 6 && r.testBit 7) ∧
    IsVector r = (r.testBit 6 || r.testBit 7) ∧
    DecodeReg r = r % 32 ∧
    (∀ i, (DecodeReg r).testBit i = (r.testBit i && decide (i < 5))) ∧
    DecodeReg r < 32 ∧
    Is64Bit (DecodeReg r) = false ∧
    IsVector (DecodeReg r) = false := by
  have hbit : ∀ i, (DecodeReg r).testBit i = (r.testBit i && decide (i < 5)) := by
    intro i
    unfold DecodeReg
    rw [Nat.testBit_and, show (0x1F : Nat) = 2 ^ 5 - 1 from rfl, Nat.testBit_two_pow_sub_one]
  refine ⟨Is64Bit_eq_testBit r, IsSingle_eq_testBit r, IsDouble_eq_testBit r,
    IsQuad_eq_testBit r, IsVector_eq_testBit r, DecodeReg_eq_mod r, hbit, DecodeReg_lt r,
    ?_, ?_⟩
  · rw [Is64Bit_eq_testBit, hbit]
    simp
  · rw [IsVector_eq_testBit, hbit, hbit]
    simp

/-- C9 (as stated, refuted): `Q0` is a named register on which three of the five class
tests hold (`IsSingle`, `IsDouble` and `IsQuad`), so the tests do not single out exactly
one class on every named register. -/
theorem classTests_not_exactly_one :
    Q0 ∈ namedRegs ∧ classTests Q0 = [false, false, true, true, true] ∧
    ¬ (∀ r, r ∈ namedRegs → (classTests r).count true = 1) := by
  refine ⟨by decide, by decide, ?_⟩
  intro h
  exact absurd (h Q0 (by decide)) (by decide)

set_option maxRecDepth 100000 in
theorem classTests_namedRegs_all :
    ∀ x, x ∈ namedRegs →
      (classTestsExclusive x).count true = 1 ∧
      (x ∉ regsQ → (classTests x).count true = 1) ∧
      (x ∈ regsQ → classTests x = [false, false, true, true, true]) := by
  decide

/-- C9 (amended): on every named register exactly one class test holds once vector-S is
read as `IsSingle` without `IsDouble` and vector-D as `IsDouble` without `IsSingle`; the
five tests as listed single out exactly one class on every named W, X, S and D register,
and on a named Q register `IsSingle`, `IsDouble` and `IsQuad` hold together. -/
theorem classTests_named (r : ARM64Reg) (h : r ∈ namedRegs) :
    (classTestsExclusive r).count true = 1 ∧
    (r ∉ regsQ → (classTests r).count true = 1) ∧
    (r ∈ regsQ → classTests r = [false, false, true, true, true]) :=
  classTests_namedRegs_all r h

/-- Witness for C9 (amended) at `Q31`. -/
theorem classTests_named_witness :
    Q31 ∈ namedRegs ∧ (classTestsExclusive Q31).count true = 1 ∧
    classTests Q31 = [false, false, true, true, true] :=
  ⟨by decide, (classTests_named Q31 (by decide)).1,
    (classTests_named Q31 (by decide)).2.2 (by decide)⟩

/-- C10: on a bare index `N < 32` the class-encode helpers give the named register of the
target class with index `N`: `X0 + N`, `D0 + N` and `Q0 + N`; in particular `WSP` is sent
to `SP`. -/
theorem EncodeReg_index (N : Nat) (h : N < 32) :
    EncodeRegTo64 N = X0 + N ∧ EncodeRegTo64 N = 0x20 + N ∧ regsX.get? N = some (EncodeRegTo64 N) ∧
    EncodeRegToDouble N = D0 + N ∧ EncodeRegToDouble N = 0x80 + N ∧
      regsD.get? N = some (EncodeRegToDouble N) ∧
    EncodeRegToQuad N = Q0 + N ∧ EncodeRegToQuad N = 0xC0 + N ∧
      regsQ.get? N = some (EncodeRegToQuad N) ∧
    EncodeRegTo64 WSP = SP := by
  interval_cases N <;> decide

/-- Witness for C10 at index 31. -/
theorem EncodeReg_index_witness :
    EncodeRegTo64 31 = 0x3F ∧ EncodeRegToDouble 31 = 0x9F ∧ EncodeRegToQuad 31 = 0xDF :=
  have h := EncodeReg_index 31 (by decide)
  ⟨h.2.1, h.2.2.2.2.1, h.2.2.2.2.2.2.2.1⟩

/-! ## Operand descriptor: `ArithOption` and `GetData` -/

theorem shl32_of_le_64 {s : Nat} (hs : s ≤ 64) : shl32 s 10 = s <<< 10 := by
  unfold shl32
  apply Nat.mod_eq_of_lt
  rw [Nat.shiftLeft_eq]
  have : s * 2 ^ 10 ≤ 64 * 2 ^ 10 := Nat.mul_le_mul_right _ hs
  have h2 : 64 * 2 ^ 10 < 2 ^ 32 := by decide
  omega

theorem ArithOption_ext_fields (uninit : ArithOption) (Rd : ARM64Reg) (index : Bool) :
    (ArithOption.ArithOption_ext uninit Rd index).m_type = .TYPE_EXTENDEDREG ∧
    (ArithOption.ArithOption_ext uninit Rd index).m_shift = (if index then 4 else 0) ∧
    (ArithOption.ArithOption_ext uninit Rd index).m_extend =
      (if Is64Bit Rd then .EXTEND_UXTX else .EXTEND_UXTW) ∧
    (ArithOption.ArithOption_ext uninit Rd index).m_destReg = Rd := by
  unfold ArithOption.ArithOption_ext
  cases index <;> cases Is64Bit Rd <;> simp

theorem ArithOption_shift_fields (uninit : ArithOption) (Rd : ARM64Reg) (k : ShiftType)
    (s : Nat) :
    (ArithOption.ArithOption_shift uninit Rd k s).m_type = .TYPE_SHIFTEDREG ∧
    (ArithOption.ArithOption_shift uninit Rd k s).m_shifttype = k ∧
    (ArithOption.ArithOption_shift uninit Rd k s).m_shift =
      (if s = (if Is64Bit Rd then 64 else 32) then 0 else s) ∧
    (ArithOption.ArithOption_shift uninit Rd k s).m_destReg = Rd := by
  unfold ArithOption.ArithOption_shift
  cases Is64Bit Rd <;> by_cases h64 : s = 64 <;> by_cases h32 : s = 32 <;> simp [h64, h32]

theorem GetData_ext_eq (uninit : ArithOption) (Rd : ARM64Reg) (index : Bool) :
    (ArithOption.ArithOption_ext uninit Rd index).GetData =
      .ok (((if Is64Bit Rd then 3 else 2) <<< 13) ||| ((if index then 4 else 0) <<< 10)) := by
  obtain ⟨ht, hs, he, _⟩ := ArithOption_ext_fields uninit Rd index
  unfold ArithOption.GetData
  rw [ht]
  simp only [hs, he]
  cases index <;> cases Is64Bit Rd <;> rfl

theorem GetData_shift_eq (uninit : ArithOption) (Rd : ARM64Reg) (k : ShiftType) (s : Nat) :
    (ArithOption.ArithOption_shift uninit Rd k s).GetData =
      .ok ((k.toNat <<< 22) |||
        shl32 (if s = (if Is64Bit Rd then 64 else 32) then 0 else s) 10) := by
  obtain ⟨ht, hk, hs, _⟩ := ArithOption_shift_fields uninit Rd k s
  unfold ArithOption.GetData
  rw [ht]
  simp only [hs, hk]

/-- C3: the extended-register operand `ArithOption(Rd, index)` encodes as
`(extend_code << 13) | (shift << 10)` with `extend_code` 3 (UXTX) for a 64-bit `Rd` and
2 (UXTW) otherwise and `shift` the stored shift amount; two registers of the same
`Is64Bit` class give the same encoding. -/
theorem GetData_extended (uninit : ArithOption) (Rd : ARM64Reg) (index : Bool) :
    (ArithOption.ArithOption_ext uninit Rd index).GetData =
      .ok (((if Is64Bit Rd then 3 else 2) <<< 13) |||
        ((ArithOption.ArithOption_ext uninit Rd index).m_shift <<< 10)) ∧
    (ArithOption.ArithOption_ext uninit Rd index).m_extend =
      (if Is64Bit Rd then .EXTEND_UXTX else .EXTEND_UXTW) ∧
    (∀ (uninit2 : ArithOption) (Rd2 : ARM64Reg), Is64Bit Rd2 = Is64Bit Rd →
      (ArithOption.ArithOption_ext uninit2 Rd2 index).GetData =
        (ArithOption.ArithOption_ext uninit Rd index).GetData) := by
  obtain ⟨_, hs, he, _⟩ := ArithOption_ext_fields uninit Rd index
  refine ⟨?_, he, ?_⟩
  · rw [hs]
    exact GetData_ext_eq uninit Rd index
  · intro uninit2 Rd2 h
    rw [GetData_ext_eq, GetData_ext_eq, h]

/-- Witness for C3: `X1` as a scaled index encodes as `0x7000`, and `X2`
gives the same bits. -/
theorem GetData_extended_witness :
    (ArithOption.ArithOption_ext ⟨0, .WIDTH_DEFAULT, .EXTEND_SXTB, .TYPE_IMM, .ST_ROR, 9⟩
      X1 true).GetData = .ok 0x7000 ∧
    (ArithOption.ArithOption_ext ⟨7, .WIDTH_32BIT, .EXTEND_UXTB, .TYPE_IMM, .ST_LSL, 0⟩
      X2 true).GetData =
    (ArithOption.ArithOption_ext ⟨0, .WIDTH_DEFAULT, .EXTEND_SXTB, .TYPE_IMM, .ST_ROR, 9⟩
      X1 true).GetData :=
  ⟨(GetData_extended ⟨0, .WIDTH_DEFAULT, .EXTEND_SXTB, .TYPE_IMM, .ST_ROR, 9⟩ X1 true).1.trans
      rfl,
    (GetData_extended ⟨0, .WIDTH_DEFAULT, .EXTEND_SXTB, .TYPE_IMM, .ST_ROR, 9⟩ X1 true).2.2
      ⟨7, .WIDTH_32BIT, .EXTEND_UXTB, .TYPE_IMM, .ST_LSL, 0⟩ X2 (by decide)⟩

/-- C4: for a shift amount `s` below the width of `Rd` the shifted-register operand
`ArithOption(Rd, k, s)` encodes as `(k << 22) | (s << 10)`; the no-shift operand
`(LSL, 0)` contributes 0. -/
theorem GetData_shifted (uninit : ArithOption) (Rd : ARM64Reg) (k : ShiftType) (s : Nat)
    (hs : s < (if Is64Bit Rd then 64 else 32)) :
    (ArithOption.ArithOption_shift uninit Rd k s).GetData =
      .ok ((k.toNat <<< 22) ||| (s <<< 10)) ∧
    (ArithOption.ArithOption_shift uninit Rd .ST_LSL 0).GetData = .ok 0 := by
  have hne : ¬ s = (if Is64Bit Rd then 64 else 32) := Nat.ne_of_lt hs
  have hle : s ≤ 64 := by
    cases h : Is64Bit Rd <;> simp [h] at hs <;> omega
  constructor
  · rw [GetData_shift_eq, if_neg hne, shl32_of_le_64 hle]
  · rw [GetData_shift_eq]
    cases Is64Bit Rd <;> rfl

/-- Witness for C4: `ROR #63` on `X1` encodes as `0xC0FC00`. -/
theorem GetData_shifted_witness :
    (ArithOption.ArithOption_shift ⟨0, .WIDTH_DEFAULT, .EXTEND_SXTB, .TYPE_IMM, .ST_LSL, 9⟩
      X1 .ST_ROR 63).GetData = .ok 0xC0FC00 :=
  (GetData_shifted ⟨0, .WIDTH_DEFAULT, .EXTEND_SXTB, .TYPE_IMM, .ST_LSL, 9⟩ X1 .ST_ROR 63
    (by decide)).1.trans rfl

/-- C5: a shift amount equal to the register width is normalized to the identity shift:
`ArithOption(Rd, k, 64)` on a 64-bit `Rd` and `ArithOption(Rd, k, 32)` on a 32-bit `Rd`
encode exactly as `ArithOption(Rd, k, 0)`, namely as `k << 22`. -/
theorem GetData_shift_width (uninit : ArithOption) (Rd : ARM64Reg) (k : ShiftType) :
    (Is64Bit Rd = true →
      (ArithOption.ArithOption_shift uninit Rd k 64).GetData =
        (ArithOption.ArithOption_shift uninit Rd k 0).GetData ∧
      (ArithOption.ArithOption_shift uninit Rd k 64).GetData = .ok (k.toNat <<< 22)) ∧
    (Is64Bit Rd = false →
      (ArithOption.ArithOption_shift uninit Rd k 32).GetData =
        (ArithOption.ArithOption_shift uninit Rd k 0).GetData ∧
      (ArithOption.ArithOption_shift uninit Rd k 32).GetData = .ok (k.toNat <<< 22)) := by
  constructor
  · intro h
    rw [GetData_shift_eq, GetData_shift_eq, h]
    cases k <;> exact ⟨rfl, rfl⟩
  · intro h
    rw [GetData_shift_eq, GetData_shift_eq, h]
    cases k <;> exact ⟨rfl, rfl⟩

/-- Witness for C5: `ASR #64` on `X3` and `ASR #32` on `W3` both
encode as `ASR #0`. -/
theorem GetData_shift_width_witness :
    (ArithOption.ArithOption_shift ⟨0, .WIDTH_DEFAULT, .EXTEND_SXTB, .TYPE_IMM, .ST_LSL, 9⟩
      X3 .ST_ASR 64).GetData = .ok 0x800000 ∧
    (ArithOption.ArithOption_shift ⟨0, .WIDTH_DEFAULT, .EXTEND_SXTB, .TYPE_IMM, .ST_LSL, 9⟩
      W3 .ST_ASR 32).GetData = .ok 0x800000 :=
  ⟨((GetData_shift_width ⟨0, .WIDTH_DEFAULT, .EXTEND_SXTB, .TYPE_IMM, .ST_LSL, 9⟩
      X3 .ST_ASR).1 (by decide)).2,
    ((GetData_shift_width ⟨0, .WIDTH_DEFAULT, .EXTEND_SXTB, .TYPE_IMM, .ST_LSL, 9⟩
      W3 .ST_ASR).2 (by decide)).2⟩

/-! ## Code buffer: `Write32` -/

theorem store_u32_other (mem : Memory) (addr value a : Nat) (h : a < addr ∨ addr + 4 ≤ a) :
    store_u32 mem addr value a = mem a := by
  unfold store_u32
  have h0 : ¬ a = addr := by omega
  have h1 : ¬ a = addr + 1 := by omega
  have h2 : ¬ a = addr + 2 := by omega
  have h3 : ¬ a = addr + 3 := by omega
  simp [h0, h1, h2, h3]

theorem store_u32_bytes (mem : Memory) (addr value : Nat) :
    store_u32 mem addr value addr = value % 256 ∧
    store_u32 mem addr value (addr + 1) = (value >>> 8) % 256 ∧
    store_u32 mem addr value (addr + 2) = (value >>> 16) % 256 ∧
    store_u32 mem addr value (addr + 3) = (value >>> 24) % 256 := by
  unfold store_u32
  simp

theorem load_store_u32 (mem : Memory) (addr value : Nat) (hv : value < 2 ^ 32) :
    load_u32 (store_u32 mem addr value) addr = value := by
  obtain ⟨h0, h1, h2, h3⟩ := store_u32_bytes mem addr value
  unfold load_u32
  rw [h0, h1, h2, h3]
  simp only [Nat.shiftRight_eq_div_pow]
  norm_num at hv ⊢
  omega

theorem load_u32_congr (m1 m2 : Memory) (addr : Nat)
    (h : ∀ a, addr ≤ a → a < addr + 4 → m1 a = m2 a) : load_u32 m1 addr = load_u32 m2 addr := by
  unfold load_u32
  rw [h addr (by omega) (by omega), h (addr + 1) (by omega) (by omega),
    h (addr + 2) (by omega) (by omega), h (addr + 3) (by omega) (by omega)]

theorem Write32s_nil (s : ARM64XEmitter × Memory) : ARM64XEmitter.Write32s s [] = s := rfl

theorem Write32s_cons (s : ARM64XEmitter × Memory) (w : Nat) (ws : List Nat) :
    ARM64XEmitter.Write32s s (w :: ws) =
      ARM64XEmitter.Write32s (ARM64XEmitter.Write32 s w) ws := rfl

theorem Write32s_frame (ws : List Nat) (s : ARM64XEmitter × Memory) :
    (ARM64XEmitter.Write32s s ws).1.m_code = s.1.m_code + 4 * ws.length ∧
    (ARM64XEmitter.Write32s s ws).1.m_startcode = s.1.m_startcode ∧
    (ARM64XEmitter.Write32s s ws).1.m_lastCacheFlushEnd = s.1.m_lastCacheFlushEnd ∧
    (∀ a, (a < s.1.m_code ∨ s.1.m_code + 4 * ws.length ≤ a) →
      (ARM64XEmitter.Write32s s ws).2 a = s.2 a) := by
  induction ws generalizing s with
  | nil => simp [Write32s_nil]
  | cons w ws ih =>
    obtain ⟨hc, hs, hl, hm⟩ := ih (ARM64XEmitter.Write32 s w)
    rw [Write32s_cons]
    refine ⟨?_, ?_, ?_, ?_⟩
    · rw [hc]
      simp only [ARM64XEmitter.Write32, List.length_cons]
      omega
    · rw [hs]
      rfl
    · rw [hl]
      rfl
    · intro a ha
      rw [hm a]
      · simp only [ARM64XEmitter.Write32]
        apply store_u32_other
        simp only [List.length_cons] at ha
        omega
      · simp only [ARM64XEmitter.Write32, List.length_cons] at ha ⊢
        omega

theorem Write32s_words (ws : List Nat) (s : ARM64XEmitter × Memory)
    (hws : ∀ w, w ∈ ws → w < 2 ^ 32) (i : Nat) (hi : i < ws.length) :
    ws.get? i = some (load_u32 (ARM64XEmitter.Write32s s ws).2 (s.1.m_code + 4 * i)) := by
  induction ws generalizing s i with
  | nil => simp at hi
  | cons w ws ih =>
    rw [Write32s_cons]
    cases i with
    | zero =>
      obtain ⟨_, _, _, hm⟩ := Write32s_frame ws (ARM64XEmitter.Write32 s w)
      have hload : load_u32 (ARM64XEmitter.Write32s (ARM64XEmitter.Write32 s w) ws).2
          (s.1.m_code + 4 * 0) = load_u32 (ARM64XEmitter.Write32 s w).2 s.1.m_code := by
        apply load_u32_congr
        intro a h1 h2
        apply hm
        left
        simp only [ARM64XEmitter.Write32]
        omega
      rw [hload]
      simp only [ARM64XEmitter.Write32]
      rw [load_store_u32 _ _ _ (hws w (List.mem_cons_self w ws))]
      rfl
    | succ j =>
      have hj : j < ws.length := by
        simp only [List.length_cons] at hi
        omega
      have := ih (ARM64XEmitter.Write32 s w) (fun x hx => hws x (List.mem_cons_of_mem w hx)) j hj
      simp only [List.get?_cons_succ]
      rw [this]
      have haddr : (ARM64XEmitter.Write32 s w).1.m_code + 4 * j = s.1.m_code + 4 * (j + 1) := by
        simp only [ARM64XEmitter.Write32]
        omega
      rw [haddr]

/-- C1: `Write32(v)` stores the 32-bit word `v` as the four bytes at the cursor `c`, least
significant byte first (so reading the word back at `c` gives `v`), moves the cursor to
`c + 4`, and leaves every other byte of memory, the start pointer and the
last-cache-flush marker unchanged. -/
theorem Write32_spec (e : ARM64XEmitter) (mem : Memory) (v : Nat) (hv : v < 2 ^ 32) :
    (∀ i, i < 4 →
      (ARM64XEmitter.Write32 (e, mem) v).2 (e.m_code + i) = (v >>> (8 * i)) % 256) ∧
    load_u32 (ARM64XEmitter.Write32 (e, mem) v).2 e.m_code = v ∧
    (ARM64XEmitter.Write32 (e, mem) v).1.m_code = e.m_code + 4 ∧
    (∀ a, (a < e.m_code ∨ e.m_code + 4 ≤ a) →
      (ARM64XEmitter.Write32 (e, mem) v).2 a = mem a) ∧
    (ARM64XEmitter.Write32 (e, mem) v).1.m_startcode = e.m_startcode ∧
    (ARM64XEmitter.Write32 (e, mem) v).1.m_lastCacheFlushEnd = e.m_lastCacheFlushEnd := by
  obtain ⟨h0, h1, h2, h3⟩ := store_u32_bytes mem e.m_code v
  refine ⟨?_, load_store_u32 mem e.m_code v hv, rfl, ?_, rfl, rfl⟩
  · intro i hi
    simp only [ARM64XEmitter.Write32]
    interval_cases i
    · simpa using h0
    · simpa using h1
    · simpa using h2
    · simpa using h3
  · intro a ha
    exact store_u32_other mem e.m_code v a ha

/-- Witness for C1: writing `0xD4200000` at cursor 8 over zeroed memory. -/
theorem Write32_spec_witness :
    load_u32 (ARM64XEmitter.Write32 (⟨8, 0, 4⟩, fun _ => 0) 0xD4200000).2 8 = 0xD4200000 ∧
    (ARM64XEmitter.Write32 (⟨8, 0, 4⟩, fun _ => 0) 0xD4200000).2 (8 + 3) = 0xD4 ∧
    (ARM64XEmitter.Write32 (⟨8, 0, 4⟩, fun _ => 0) 0xD4200000).1 = ⟨12, 0, 4⟩ :=
  have h := Write32_spec ⟨8, 0, 4⟩ (fun _ => 0) 0xD4200000 (by decide)
  ⟨h.2.1, (h.1 3 (by decide)).trans (by decide), by decide⟩

/-- C2: emission is append-only. Starting from an emitter constructed over `p`, after the
first `n` words of `ws` have been written with successive `Write32` calls the word at
byte offset `p + 4 * i` is `ws[i]` for every `i < n`, whatever `n` is: a later write
never changes an earlier word, and the final buffer holds the words in emission order. -/
theorem Write32s_append_only (p : Nat) (mem : Memory) (ws : List Nat)
    (hws : ∀ w, w ∈ ws → w < 2 ^ 32) :
    (∀ n i, i < n → n ≤ ws.length →
      ws.get? i = some (load_u32
        (ARM64XEmitter.Write32s (ARM64XEmitter.new p, mem) (ws.take n)).2 (p + 4 * i))) ∧
    (∀ i, i < ws.length →
      ws.get? i = some (load_u32
        (ARM64XEmitter.Write32s (ARM64XEmitter.new p, mem) ws).2 (p + 4 * i))) := by
  have hfin : ∀ (l : List Nat), (∀ w, w ∈ l → w < 2 ^ 32) → ∀ i, i < l.length →
      l.get? i = some (load_u32
        (ARM64XEmitter.Write32s (ARM64XEmitter.new p, mem) l).2 (p + 4 * i)) := by
    intro l hl i hi
    exact Write32s_words l (ARM64XEmitter.new p, mem) hl i hi
  refine ⟨?_, hfin ws hws⟩
  intro n i hi hn
  have hlen : i < (ws.take n).length := by
    rw [List.length_take]
    omega
  rw [← hfin (ws.take n) (fun w hw => hws w (List.mem_of_mem_take hw)) i hlen]
  rw [List.get?_eq_getElem?, List.get?_eq_getElem?, List.getElem?_take_of_lt hi]

/-- Witness for C2: three words written from address 16. -/
theorem Write32s_append_only_witness :
    load_u32 (ARM64XEmitter.Write32s (ARM64XEmitter.new 16, fun _ => 0xFF)
      [0x8B020020, 0x0B020020, 0xD4200000]).2 (16 + 4 * 1) = 0x0B020020 :=
  Option.some.inj (((Write32s_append_only 16 (fun _ => 0xFF)
    [0x8B020020, 0x0B020020, 0xD4200000] (by decide)).2 1 (by decide)).symm)

/-! ## Operand descriptor: type tags and constructor arguments -/

/-- C11 (as stated, refuted): on a `TYPE_IMM` descriptor `GetData` does not stop at the
diagnostic: it passes the assertion "Invalid type in GetData" and then returns 0, the very
bits it returns for the valid no-shift operand `ArithOption(X1, ST_LSL, 0)`. -/
theorem GetData_invalid_type_returns_zero :
    (ArithOption.mk X1 .WIDTH_64BIT .EXTEND_UXTX .TYPE_IMM .ST_LSL 5).GetData =
      .asserted "Invalid type in GetData" 0 ∧
    (ArithOption.mk X1 .WIDTH_64BIT .EXTEND_UXTX .TYPE_IMM .ST_LSL 5).GetData.val = 0 ∧
    (ArithOption.ArithOption_shift ⟨0, .WIDTH_DEFAULT, .EXTEND_UXTB, .TYPE_IMM, .ST_LSL, 0⟩
      X1 .ST_LSL 0).GetData.val = 0 :=
  ⟨rfl, rfl, rfl⟩

/-- C11 (amended): on an operand descriptor whose type is neither extended-register nor
shifted-register (that is, `TYPE_IMM`) `GetData` passes the debug assertion with the
message "Invalid type in GetData" and then returns 0; on the two valid types it passes no
failed assertion and returns the encoded bits. -/
theorem GetData_invalid_type (o : ArithOption) :
    ((o.m_type ≠ .TYPE_EXTENDEDREG ∧ o.m_type ≠ .TYPE_SHIFTEDREG) ↔ o.m_type = .TYPE_IMM) ∧
    (o.m_type = .TYPE_IMM →
      o.GetData = .asserted "Invalid type in GetData" 0 ∧ o.GetData.val = 0) ∧
    (o.m_type = .TYPE_EXTENDEDREG →
      o.GetData = .ok ((o.m_extend.toNat <<< 13) ||| shl32 o.m_shift 10)) ∧
    (o.m_type = .TYPE_SHIFTEDREG →
      o.GetData = .ok ((o.m_shifttype.toNat <<< 22) ||| shl32 o.m_shift 10)) := by
  refine ⟨?_, ?_, ?_, ?_⟩
  · cases h : o.m_type <;> simp
  · intro h
    unfold ArithOption.GetData
    rw [h]
    exact ⟨rfl, rfl⟩
  · intro h
    unfold ArithOption.GetData
    rw [h]
  · intro h
    unfold ArithOption.GetData
    rw [h]

/-- Witness for C11 (amended): a `TYPE_IMM` descriptor passes the assertion and returns 0,
an extended-register one returns its bits. -/
theorem GetData_invalid_type_witness :
    (ArithOption.mk X1 .WIDTH_64BIT .EXTEND_UXTX .TYPE_IMM .ST_LSL 0).GetData =
      .asserted "Invalid type in GetData" 0 ∧
    (ArithOption.mk X1 .WIDTH_64BIT .EXTEND_UXTX .TYPE_EXTENDEDREG .ST_LSL 0).GetData =
      .ok 0x6000 :=
  ⟨((GetData_invalid_type ⟨X1, .WIDTH_64BIT, .EXTEND_UXTX, .TYPE_IMM, .ST_LSL, 0⟩).2.1 rfl).1,
    ((GetData_invalid_type
      ⟨X1, .WIDTH_64BIT, .EXTEND_UXTX, .TYPE_EXTENDEDREG, .ST_LSL, 0⟩).2.2.1 rfl).trans rfl⟩

/-- C12: `GetData` is a function of the constructor arguments alone. Two operands built
by the same constructor from the same arguments return the same `GetData`, whatever the
storage they were built in held before (so whatever `m_shifttype` is after the
extended-register constructor and whatever `m_extend` is after the shifted-register
one); `GetData` takes no emitter state. -/
theorem GetData_constructor_args (u1 u2 : ArithOption) (Rd : ARM64Reg) :
    (∀ index : Bool,
      (ArithOption.ArithOption_ext u1 Rd index).GetData =
        (ArithOption.ArithOption_ext u2 Rd index).GetData) ∧
    (∀ (shift_type : ShiftType) (shift : Nat),
      (ArithOption.ArithOption_shift u1 Rd shift_type shift).GetData =
        (ArithOption.ArithOption_shift u2 Rd shift_type shift).GetData) := by
  constructor
  · intro index
    rw [GetData_ext_eq, GetData_ext_eq]
  · intro shift_type shift
    rw [GetData_shift_eq, GetData_shift_eq]

/-! ## Code buffer: state invariant -/

theorem Write32s_bytes (ws : List Nat) (s : ARM64XEmitter × Memory) (i j w : Nat)
    (hw : ws.get? i = some w) (hj : j < 4) :
    (ARM64XEmitter.Write32s s ws).2 (s.1.m_code + 4 * i + j) = (w >>> (8 * j)) % 256 := by
  induction ws generalizing s i with
  | nil => simp at hw
  | cons w0 ws ih =>
    rw [Write32s_cons]
    cases i with
    | zero =>
      have hw0 : w0 = w := by simpa using hw
      subst hw0
      obtain ⟨_, _, _, hm⟩ := Write32s_frame ws (ARM64XEmitter.Write32 s w0)
      rw [hm]
      · obtain ⟨h0, h1, h2, h3⟩ := store_u32_bytes s.2 s.1.m_code w0
        simp only [ARM64XEmitter.Write32]
        interval_cases j
        · simpa using h0
        · simpa using h1
        · simpa using h2
        · simpa using h3
      · left
        simp only [ARM64XEmitter.Write32]
        omega
    | succ k =>
      have hk : ws.get? k = some w := by simpa using hw
      have := ih (ARM64XEmitter.Write32 s w0) k hk
      have haddr : (ARM64XEmitter.Write32 s w0).1.m_code + 4 * k + j =
          s.1.m_code + 4 * (k + 1) + j := by
        simp only [ARM64XEmitter.Write32]
        omega
      rw [← haddr]
      exact this

/-- C13: after constructing an emitter over `p` and performing `n` `Write32` calls (the
words `ws`, `n = ws.length`), the start pointer and the last-cache-flush marker are still
`p` and the cursor is `p + 4 * n`; so the cursor is a multiple of 4 whenever `p` is, the
region from the marker to the cursor has `4 * n` bytes, each of them a byte of a written
word, and every byte outside it is as before. -/
theorem Write32s_state_invariant (p : Nat) (mem : Memory) (ws : List Nat) :
    (ARM64XEmitter.Write32s (ARM64XEmitter.new p, mem) ws).1.m_startcode = p ∧
    (ARM64XEmitter.Write32s (ARM64XEmitter.new p, mem) ws).1.m_lastCacheFlushEnd = p ∧
    (ARM64XEmitter.Write32s (ARM64XEmitter.new p, mem) ws).1.m_code = p + 4 * ws.length ∧
    (4 ∣ p → 4 ∣ (ARM64XEmitter.Write32s (ARM64XEmitter.new p, mem) ws).1.m_code) ∧
    (ARM64XEmitter.Write32s (ARM64XEmitter.new p, mem) ws).1.m_code -
      (ARM64XEmitter.Write32s (ARM64XEmitter.new p, mem) ws).1.m_lastCacheFlushEnd =
      4 * ws.length ∧
    (∀ i j w, ws.get? i = some w → j < 4 →
      (ARM64XEmitter.Write32s (ARM64XEmitter.new p, mem) ws).2
        ((ARM64XEmitter.Write32s (ARM64XEmitter.new p, mem) ws).1.m_lastCacheFlushEnd +
          4 * i + j) = (w >>> (8 * j)) % 256) ∧
    (∀ a, (a < (ARM64XEmitter.Write32s (ARM64XEmitter.new p, mem) ws).1.m_lastCacheFlushEnd ∨
        (ARM64XEmitter.Write32s (ARM64XEmitter.new p, mem) ws).1.m_code ≤ a) →
      (ARM64XEmitter.Write32s (ARM64XEmitter.new p, mem) ws).2 a = mem a) := by
  obtain ⟨hc, hs, hl, hm⟩ := Write32s_frame ws (ARM64XEmitter.new p, mem)
  have hc2 : (ARM64XEmitter.Write32s (ARM64XEmitter.new p, mem) ws).1.m_code =
      p + 4 * ws.length := hc
  have hs2 : (ARM64XEmitter.Write32s (ARM64XEmitter.new p, mem) ws).1.m_startcode = p := hs
  have hl2 : (ARM64XEmitter.Write32s (ARM64XEmitter.new p, mem) ws).1.m_lastCacheFlushEnd = p :=
    hl
  refine ⟨hs2, hl2, hc2, ?_, ?_, ?_, ?_⟩
  · intro hp
    rw [hc2]
    exact Nat.dvd_add hp (Nat.dvd_mul_right 4 ws.length)
  · rw [hc2, hl2]
    omega
  · intro i j w hw hj
    rw [hl2]
    exact Write32s_bytes ws (ARM64XEmitter.new p, mem) i j w hw hj
  · intro a ha
    rw [hl2, hc2] at ha
    exact hm a ha

/-- Witness for C13: two words written from the 4-aligned address 16. -/
theorem Write32s_state_invariant_witness :
    (ARM64XEmitter.Write32s (ARM64XEmitter.new 16, fun _ => 0) [0x8B020020, 0xD4200000]).1 =
      ⟨24, 16, 16⟩ ∧
    4 ∣ (ARM64XEmitter.Write32s (ARM64XEmitter.new 16, fun _ => 0)
      [0x8B020020, 0xD4200000]).1.m_code ∧
    (ARM64XEmitter.Write32s (ARM64XEmitter.new 16, fun _ => 0) [0x8B020020, 0xD4200000]).2
      (16 + 4 * 1 + 3) = 0xD4 :=
  have h := Write32s_state_invariant 16 (fun _ => 0) [0x8B020020, 0xD4200000]
  ⟨by decide, h.2.2.2.1 (by decide),
    (h.2.2.2.2.2.1 1 3 0xD4200000 (by decide) (by decide)).trans (by decide)⟩

/-! ## Code block: words written by `PoisonMemory` -/

theorem PoisonMemory_loop_eq (n : Nat) (mem : Memory) (ptr sc lf : Nat) :
    PoisonMemory_loop n mem ptr (ptr + 4 * n) =
      some (ARM64XEmitter.Write32s (⟨ptr, sc, lf⟩, mem) (List.replicate n 0xD4200000)).2 := by
  induction n generalizing mem ptr with
  | zero => simp [PoisonMemory_loop, Write32s_nil]
  | succ n ih =>
    have hlt : ptr < ptr + 4 * (n + 1) := by omega
    have hmax : ptr + 4 * (n + 1) = (ptr + 4) + 4 * n := by omega
    rw [PoisonMemory_loop, if_pos hlt, hmax, ih, List.replicate_succ, Write32s_cons]
    rfl

theorem PoisonMemory_eq (mem : Memory) (region region_size : Nat) :
    PoisonMemory mem region region_size =
      some (ARM64XEmitter.Write32s (ARM64XEmitter.new region, mem)
        (List.replicate region_size 0xD4200000)).2 :=
  PoisonMemory_loop_eq region_size mem region region region

/-- C14: `PoisonMemory` returns, and afterwards every whole 32-bit word of the code region
`[region, region + region_size)` holds `0xD4200000`, the word with the exception-class
opcode `0xD4` in bits 24..31, bit 21 set (`BRK`) and a zero 16-bit immediate in bits
5..20. -/
theorem PoisonMemory_region_words (mem : Memory) (region region_size : Nat) :
    ∃ mem2, PoisonMemory mem region region_size = some mem2 ∧
      (∀ k, 4 * k + 4 ≤ region_size → load_u32 mem2 (region + 4 * k) = 0xD4200000) ∧
      0xD4200000 = (0xD4 <<< 24) ||| (1 <<< 21) ||| (0 <<< 5) ∧
      (0xD4200000 >>> 5) % 2 ^ 16 = 0 := by
  refine ⟨_, PoisonMemory_eq mem region region_size, ?_, by decide, by decide⟩
  intro k hk
  have hlen : k < (List.replicate region_size 0xD4200000).length := by
    rw [List.length_replicate]
    omega
  have hws : ∀ w, w ∈ List.replicate region_size 0xD4200000 → w < 2 ^ 32 := by
    intro w hw
    rw [List.eq_of_mem_replicate hw]
    decide
  have h := Write32s_words (List.replicate region_size 0xD4200000)
    (ARM64XEmitter.new region, mem) hws k hlen
  have hget : (List.replicate region_size 0xD4200000).get? k = some 0xD4200000 := by
    rw [List.get?_eq_getElem?, List.getElem?_replicate]
    simp
    omega
  rw [hget] at h
  exact (Option.some.inj h).symm

/-- Witness for C14: a region of 8 bytes at `0x1000` holds two poisoned words. -/
theorem PoisonMemory_region_words_witness :
    ∃ mem2, PoisonMemory (fun _ => 0) 0x1000 8 = some mem2 ∧
      load_u32 mem2 (0x1000 + 4 * 1) = 0xD4200000 :=
  (PoisonMemory_region_words (fun _ => 0) 0x1000 8).elim
    (fun mem2 h => ⟨mem2, h.1, h.2.1 1 (by decide)⟩)

/-- C15 (code defect): for a region of 8 bytes at `0x1000` over zeroed memory the loop
writes 8 words, not 2: the words at `0x1008` and `0x101C` and the byte at `0x101F`, all
at or beyond `region + region_size = 0x1008`, are overwritten; the first byte left
untouched is `0x1020 = region + 4 * region_size`. -/
theorem PoisonMemory_overrun :
    (PoisonMemory (fun _ => 0) 0x1000 8).map
      (fun m => (load_u32 m 0x1004, load_u32 m 0x1008, load_u32 m 0x101C, m 0x101F, m 0x1020)) =
    some (0xD4200000, 0xD4200000, 0xD4200000, 0xD4, 0) := by
  decide

/-! ## Scaled memory index: the scale flag -/

theorem indexShiftAmount_of_flag (data size : Nat) (h : data.testBit 12 = true) :
    indexShiftAmount data size = indexShiftOfSize size := by
  unfold indexShiftAmount
  cases indexShiftOfSize size with
  | none => rfl
  | some k => simp [h]

theorem indexShiftAmount_of_no_flag (data size : Nat) (h : data.testBit 12 = false)
    (hsize : size ∈ [8, 16, 32, 64]) : indexShiftAmount data size = some 0 := by
  unfold indexShiftAmount
  simp only [List.mem_cons, List.mem_singleton, List.not_mem_nil, or_false] at hsize
  rcases hsize with h8 | h16 | h32 | h64
  · subst h8
    simp [indexShiftOfSize, h]
  · subst h16
    simp [indexShiftOfSize, h]
  · subst h32
    simp [indexShiftOfSize, h]
  · subst h64
    simp [indexShiftOfSize, h]

/-- C20: an extended-register operand constructed as a scaled memory index
(`index = true`) encodes the scale flag (the stored 4, shifted by 10, is bit 12 alone of
bits 10..12), so the left shift it stands for is log2 of the access size: 0 for 8-bit,
1 for 16-bit, 2 for 32-bit and 3 for 64-bit accesses; an operand constructed with
`index = false` stores the shift amount 0, has the flag clear, and stands for the shift 0
at every access size. -/
theorem index_shift_scaled (uninit : ArithOption) (Rd : ARM64Reg) :
    (∃ data, (ArithOption.ArithOption_ext uninit Rd true).GetData = .ok data ∧
      (ArithOption.ArithOption_ext uninit Rd true).m_shift = 4 ∧
      data.testBit 12 = true ∧ (data >>> 10) % 8 = 4 ∧
      (∀ size, size ∈ [8, 16, 32, 64] →
        indexShiftAmount data size = indexShiftOfSize size) ∧
      indexShiftAmount data 8 = some 0 ∧ indexShiftAmount data 16 = some 1 ∧
      indexShiftAmount data 32 = some 2 ∧ indexShiftAmount data 64 = some 3) ∧
    (∃ data, (ArithOption.ArithOption_ext uninit Rd false).GetData = .ok data ∧
      (ArithOption.ArithOption_ext uninit Rd false).m_shift = 0 ∧
      data.testBit 12 = false ∧ (data >>> 10) % 8 = 0 ∧
      (∀ size, size ∈ [8, 16, 32, 64] → indexShiftAmount data size = some 0)) := by
  constructor
  · have hbit : (((if Is64Bit Rd then 3 else 2) <<< 13) |||
        ((if true then 4 else 0) <<< 10)).testBit 12 = true := by
      cases Is64Bit Rd <;> decide
    have hlow : ((((if Is64Bit Rd then 3 else 2) <<< 13) |||
        ((if true then 4 else 0) <<< 10)) >>> 10) % 8 = 4 := by
      cases Is64Bit Rd <;> decide
    refine ⟨_, GetData_ext_eq uninit Rd true, (ArithOption_ext_fields uninit Rd true).2.1,
      hbit, hlow, fun size _ => indexShiftAmount_of_flag _ size hbit, ?_, ?_, ?_, ?_⟩
    · exact indexShiftAmount_of_flag _ 8 hbit
    · exact indexShiftAmount_of_flag _ 16 hbit
    · exact indexShiftAmount_of_flag _ 32 hbit
    · exact indexShiftAmount_of_flag _ 64 hbit
  · have hbit : (((if Is64Bit Rd then 3 else 2) <<< 13) |||
        ((if false then 4 else 0) <<< 10)).testBit 12 = false := by
      cases Is64Bit Rd <;> decide
    have hlow : ((((if Is64Bit Rd then 3 else 2) <<< 13) |||
        ((if false then 4 else 0) <<< 10)) >>> 10) % 8 = 0 := by
      cases Is64Bit Rd <;> decide
    exact ⟨_, GetData_ext_eq uninit Rd false, (ArithOption_ext_fields uninit Rd false).2.1,
      hbit, hlow, fun size hsize => indexShiftAmount_of_no_flag _ size hbit hsize⟩

/-- Witness for C20: `X1` as a scaled index in a 32-bit access stands for `LSL 2`. -/
theorem index_shift_scaled_witness :
    ∃ data,
      (ArithOption.ArithOption_ext ⟨0, .WIDTH_DEFAULT, .EXTEND_UXTB, .TYPE_IMM, .ST_LSL, 0⟩
        X1 true).GetData = .ok data ∧
      indexShiftAmount data 32 = some 2 :=
  (index_shift_scaled ⟨0, .WIDTH_DEFAULT, .EXTEND_UXTB, .TYPE_IMM, .ST_LSL, 0⟩ X1).1.elim
    (fun data h => ⟨data, h.1, (h.2.2.2.2.1 32 (by decide)).trans rfl⟩)

/-! ## Integer instruction emitter: `ADD` -/

theorem ADD_X0_X1_X2 (e : ARM64XEmitter) (mem : Memory) (uninit : ArithOption) :
    ARM64XEmitter.ADD (e, mem) uninit X0 X1 X2 =
      .ok (ARM64XEmitter.Write32 (e, mem) 0x8B020020) := by
  unfold ARM64XEmitter.ADD ARM64XEmitter.ADD_option ARM64XEmitter.EncodeArithmeticInst
  obtain ⟨ht, _, _, _⟩ := ArithOption_shift_fields uninit X0 .ST_LSL 0
  rw [GetData_shift_eq]
  simp only [ArithOption.GetType, ht]
  rfl

theorem ADD_W0_W1_W2 (e : ARM64XEmitter) (mem : Memory) (uninit : ArithOption) :
    ARM64XEmitter.ADD (e, mem) uninit W0 W1 W2 =
      .ok (ARM64XEmitter.Write32 (e, mem) 0x0B020020) := by
  unfold ARM64XEmitter.ADD ARM64XEmitter.ADD_option ARM64XEmitter.EncodeArithmeticInst
  obtain ⟨ht, _, _, _⟩ := ArithOption_shift_fields uninit W0 .ST_LSL 0
  rw [GetData_shift_eq]
  simp only [ArithOption.GetType, ht]
  rfl

/-- C16: `ADD(X0, X1, X2)` with no shift or extend appends the word `0x8B020020` and
`ADD(W0, W1, W2)` appends `0x0B020020`; the two words differ exactly in bit 31, the size
bit. -/
theorem ADD_reference_words (e : ARM64XEmitter) (mem : Memory) (uninit : ArithOption) :
    ARM64XEmitter.ADD (e, mem) uninit X0 X1 X2 =
      .ok (ARM64XEmitter.Write32 (e, mem) 0x8B020020) ∧
    ARM64XEmitter.ADD (e, mem) uninit W0 W1 W2 =
      .ok (ARM64XEmitter.Write32 (e, mem) 0x0B020020) ∧
    load_u32 (ARM64XEmitter.Write32 (e, mem) 0x8B020020).2 e.m_code = 0x8B020020 ∧
    load_u32 (ARM64XEmitter.Write32 (e, mem) 0x0B020020).2 e.m_code = 0x0B020020 ∧
    0x8B020020 ^^^ 0x0B020020 = 1 <<< 31 :=
  ⟨ADD_X0_X1_X2 e mem uninit, ADD_W0_W1_W2 e mem uninit,
    load_store_u32 mem e.m_code 0x8B020020 (by decide),
    load_store_u32 mem e.m_code 0x0B020020 (by decide), by decide⟩

/-! ## Branch emission and fixups: round trip and range check -/

theorem IsInRangeImm_iff (bits : Nat) (distance : Int) :
    IsInRangeImm bits distance = true ↔
      distance % 4 = 0 ∧ -(2 : Int) ^ (bits - 1) ≤ distance / 4 ∧
        distance / 4 < (2 : Int) ^ (bits - 1) := by
  unfold IsInRangeImm
  simp

theorem assert_msg_true (msg : String) : assert_msg true msg = .ok () := rfl

theorem assert_msg_false (msg : String) : assert_msg false msg = .error msg := rfl

/-- For every branch class, resolving the ledger entry at a cursor `target` in range
stores at the patch location the word the known-target call writes at that location. -/
theorem SetJumpTarget_emitKnown (cls : BranchClass) (s0 s2 : ARM64XEmitter × Memory)
    (uninit : FixupBranch)
    (hr : IsInRangeImm cls.immBits ((s2.1.m_code : Int) - (s0.1.m_code : Int)) = true) :
    ∃ w, cls.emitKnown s0 s2.1.m_code = .ok (ARM64XEmitter.Write32 s0 w) ∧
      ARM64XEmitter.SetJumpTarget s2 (cls.emitFixup s0 uninit).1 =
        .ok (s2.1, store_u32 s2.2 s0.1.m_code w) := by
  cases cls <;>
    simp only [BranchClass.immBits] at hr <;>
    simp only [BranchClass.emitKnown, BranchClass.emitFixup, ARM64XEmitter.CBZ,
      ARM64XEmitter.CBNZ, ARM64XEmitter.B_cond, ARM64XEmitter.TBZ, ARM64XEmitter.TBNZ,
      ARM64XEmitter.B, ARM64XEmitter.BL, ARM64XEmitter.CBZ_ptr, ARM64XEmitter.CBNZ_ptr,
      ARM64XEmitter.B_cond_ptr, ARM64XEmitter.TBZ_ptr, ARM64XEmitter.TBNZ_ptr,
      ARM64XEmitter.B_ptr, ARM64XEmitter.BL_ptr, ARM64XEmitter.EncodeCompareBranchInst,
      ARM64XEmitter.EncodeTestBranchInst, ARM64XEmitter.EncodeUnconditionalBranchInst,
      ARM64XEmitter.SetJumpTarget, FixupBranch.immBits, FixupBranch.inst, hr,
      assert_msg_true] <;>
    exact ⟨_, rfl, rfl⟩

theorem emitFixup_eq (cls : BranchClass) (s0 : ARM64XEmitter × Memory) (uninit : FixupBranch) :
    (cls.emitFixup s0 uninit).2 =
      ARM64XEmitter.Write32 s0 ((cls.emitFixup s0 uninit).1.inst 0) ∧
    (cls.emitFixup s0 uninit).1.ptr = s0.1.m_code := by
  cases cls <;> exact ⟨rfl, rfl⟩

/-- C17: fixup round trip. For every branch class, emitting the branch with an unknown
target at cursor `c`, writing the unrelated words `ws` and resolving the returned
`FixupBranch` with `SetJumpTarget` (the target `c + 4 + 4 * ws.length` being in range)
succeeds, leaves at the patch location `c` exactly the word that emitting the same branch
at `c` with that target known writes there, and changes no other byte and no pointer of
the emitter. -/
theorem fixup_round_trip (cls : BranchClass) (s0 : ARM64XEmitter × Memory)
    (uninit : FixupBranch) (ws : List Nat)
    (hr : IsInRangeImm cls.immBits (4 + 4 * (ws.length : Int)) = true) :
    ∃ w s3,
      cls.emitKnown s0 (s0.1.m_code + 4 + 4 * ws.length) =
        .ok (ARM64XEmitter.Write32 s0 w) ∧
      ARM64XEmitter.SetJumpTarget
        (ARM64XEmitter.Write32s (cls.emitFixup s0 uninit).2 ws) (cls.emitFixup s0 uninit).1 =
        .ok s3 ∧
      (∀ j, j < 4 → s3.2 (s0.1.m_code + j) = (ARM64XEmitter.Write32 s0 w).2 (s0.1.m_code + j)) ∧
      load_u32 s3.2 s0.1.m_code = load_u32 (ARM64XEmitter.Write32 s0 w).2 s0.1.m_code ∧
      (∀ a, (a < s0.1.m_code ∨ s0.1.m_code + 4 ≤ a) →
        s3.2 a = (ARM64XEmitter.Write32s (cls.emitFixup s0 uninit).2 ws).2 a) ∧
      s3.1 = (ARM64XEmitter.Write32s (cls.emitFixup s0 uninit).2 ws).1 := by
  obtain ⟨hfix, _⟩ := emitFixup_eq cls s0 uninit
  have hcur : (ARM64XEmitter.Write32s (cls.emitFixup s0 uninit).2 ws).1.m_code =
      s0.1.m_code + 4 + 4 * ws.length := by
    rw [(Write32s_frame ws (cls.emitFixup s0 uninit).2).1, hfix]
    rfl
  have hr2 : IsInRangeImm cls.immBits
      (((ARM64XEmitter.Write32s (cls.emitFixup s0 uninit).2 ws).1.m_code : Int) -
        (s0.1.m_code : Int)) = true := by
    rw [hcur]
    have : ((s0.1.m_code + 4 + 4 * ws.length : Nat) : Int) - (s0.1.m_code : Int) =
        4 + 4 * (ws.length : Int) := by
      push_cast
      omega
    rw [this]
    exact hr
  obtain ⟨w, hk, hs⟩ := SetJumpTarget_emitKnown cls s0
    (ARM64XEmitter.Write32s (cls.emitFixup s0 uninit).2 ws) uninit hr2
  rw [hcur] at hk
  have hbytes : ∀ a, s0.1.m_code ≤ a → a < s0.1.m_code + 4 →
      store_u32 (ARM64XEmitter.Write32s (cls.emitFixup s0 uninit).2 ws).2 s0.1.m_code w a =
        (ARM64XEmitter.Write32 s0 w).2 a := by
    intro a h1 h2
    simp only [ARM64XEmitter.Write32, store_u32]
    have : a = s0.1.m_code ∨ a = s0.1.m_code + 1 ∨ a = s0.1.m_code + 2 ∨
        a = s0.1.m_code + 3 := by omega
    rcases this with h | h | h | h <;> simp [h]
  refine ⟨w, _, hk, hs, ?_, ?_, ?_, rfl⟩
  · intro j hj
    exact hbytes _ (by omega) (by omega)
  · exact load_u32_congr _ _ _ hbytes
  · intro a ha
    exact store_u32_other _ _ _ a ha

/-- Witness for C17: `CBNZ X3` emitted at `0x1000`, two unrelated words, then resolved:
the patch location holds `CBNZ X3, +12`, the word `0xB5000063`. -/
theorem fixup_round_trip_witness :
    ∃ s3,
      (BranchClass.CBNZ X3).emitKnown (⟨0x1000, 0x1000, 0x1000⟩, fun _ => 0) (0x1000 + 4 + 4 * 2) =
        .ok (ARM64XEmitter.Write32 (⟨0x1000, 0x1000, 0x1000⟩, fun _ => 0) 0xB5000063) ∧
      ARM64XEmitter.SetJumpTarget
        (ARM64XEmitter.Write32s ((BranchClass.CBNZ X3).emitFixup
          (⟨0x1000, 0x1000, 0x1000⟩, fun _ => 0) ⟨0, 0, 0, 0, 0⟩).2 [0x8B020020, 0xD4200000])
        ((BranchClass.CBNZ X3).emitFixup
          (⟨0x1000, 0x1000, 0x1000⟩, fun _ => 0) ⟨0, 0, 0, 0, 0⟩).1 = .ok s3 ∧
      load_u32 s3.2 0x1000 = 0xB5000063 :=
  (fixup_round_trip (.CBNZ X3) (⟨0x1000, 0x1000, 0x1000⟩, fun _ => 0) ⟨0, 0, 0, 0, 0⟩
    [0x8B020020, 0xD4200000] (by decide)).elim
    (fun _ h => h.elim (fun s3 h3 =>
      ⟨s3, by rfl, h3.2.1, h3.2.2.2.1.trans
        ((congrArg (fun r => load_u32 r.2 0x1000)
          (Except.ok.inj (h3.1.symm.trans (by rfl)))).trans (by decide))⟩))

/-- C18: the conditional branch `B(cond, ptr)` whose displacement from the cursor to
`ptr` does not fit the signed 19-bit word-offset field (it is not a multiple of 4, or
lies outside `[-2^20, 2^20)` bytes) fails its precondition check and produces no written
state; a displacement that fits appends one word holding it untruncated. -/
theorem B_cond_ptr_range (s : ARM64XEmitter × Memory) (cond : CCFlags) (ptr : Nat) :
    (IsInRangeImm 19 ((ptr : Int) - (s.1.m_code : Int)) = false →
      ARM64XEmitter.B_cond_ptr s cond ptr = .error "B: distance out of range") ∧
    (IsInRangeImm 19 ((ptr : Int) - (s.1.m_code : Int)) = true →
      ARM64XEmitter.B_cond_ptr s cond ptr = .ok (ARM64XEmitter.Write32 s
        ((0x54 <<< 24) ||| (MaskImm 19 ((ptr : Int) - (s.1.m_code : Int)) <<< 5) ||| cond.val)) ∧
      ((MaskImm 19 ((ptr : Int) - (s.1.m_code : Int)) : Int) =
        (((ptr : Int) - (s.1.m_code : Int)) / 4) % 2 ^ 19)) ∧
    (IsInRangeImm 19 ((ptr : Int) - (s.1.m_code : Int)) = true ↔
      ((ptr : Int) - (s.1.m_code : Int)) % 4 = 0 ∧
        -(2 : Int) ^ 20 ≤ (ptr : Int) - (s.1.m_code : Int) ∧
        (ptr : Int) - (s.1.m_code : Int) < (2 : Int) ^ 20) := by
  refine ⟨?_, ?_, ?_⟩
  · intro h
    simp only [ARM64XEmitter.B_cond_ptr, h]
    rfl
  · intro h
    refine ⟨?_, ?_⟩
    · simp only [ARM64XEmitter.B_cond_ptr, h]
      rfl
    · unfold MaskImm
      apply Int.toNat_of_nonneg
      apply Int.emod_nonneg
      norm_num
  · rw [IsInRangeImm_iff]
    norm_num
    omega

/-- Witness for C18: from cursor `0x1000` a target `2^20` bytes ahead and a target 6
bytes ahead are both rejected; a target 8 bytes ahead is encoded as `B.NE +8`. -/
theorem B_cond_ptr_range_witness :
    ARM64XEmitter.B_cond_ptr (⟨0x1000, 0, 0⟩, fun _ => 0) 1 (0x1000 + 0x100000) =
      .error "B: distance out of range" ∧
    ARM64XEmitter.B_cond_ptr (⟨0x1000, 0, 0⟩, fun _ => 0) 1 0x1006 =
      .error "B: distance out of range" ∧
    ARM64XEmitter.B_cond_ptr (⟨0x1000, 0, 0⟩, fun _ => 0) 1 0x1008 =
      .ok (ARM64XEmitter.Write32 (⟨0x1000, 0, 0⟩, fun _ => 0) 0x54000041) :=
  ⟨(B_cond_ptr_range (⟨0x1000, 0, 0⟩, fun _ => 0) 1 (0x1000 + 0x100000)).1 (by decide),
    (B_cond_ptr_range (⟨0x1000, 0, 0⟩, fun _ => 0) 1 0x1006).1 (by decide),
    ((B_cond_ptr_range (⟨0x1000, 0, 0⟩, fun _ => 0) 1 0x1008).2.1 (by decide)).1.trans
      (by rfl)⟩

/-! ## Immediate-to-register synthesis: `MOVI2R` -/


theorem chunk16_eq (v : Nat) (pos : ShiftAmount) :
    chunk16 v pos = v / 2 ^ (16 * pos.toNat) % 65536 := by
  unfold chunk16
  rw [Nat.shiftRight_eq_div_pow]
  exact Nat.and_pow_two_sub_one_eq_mod _ 16

theorem chunk16_lt (v : Nat) (pos : ShiftAmount) : chunk16 v pos < 65536 := by
  rw [chunk16_eq]
  exact Nat.mod_lt _ (by decide)

theorem setChunk16_spec (v : Nat) (p : ShiftAmount) (x : Nat) (hv : v < 2 ^ 64)
    (hx : x < 65536) :
    setChunk16 v p x < 2 ^ 64 ∧
    ∀ q, chunk16 (setChunk16 v p x) q = if q = p then x else chunk16 v q := by
  have hsplit : setChunk16 v p x < 2 ^ 64 ∧
      ∀ q, setChunk16 v p x / 2 ^ (16 * q.toNat) % 65536 =
        if q = p then x else v / 2 ^ (16 * q.toNat) % 65536 := by
    unfold setChunk16
    rw [chunk16_eq]
    norm_num at hv
    cases p <;> simp only [ShiftAmount.toNat] <;> norm_num <;> refine ⟨by omega, ?_⟩ <;>
      intro q <;> cases q <;> simp only [ShiftAmount.toNat, reduceCtorEq, if_false, if_true] <;>
      norm_num <;> omega
  refine ⟨hsplit.1, ?_⟩
  intro q
  rw [chunk16_eq, chunk16_eq]
  exact hsplit.2 q

theorem eq_of_chunk16_eq (u v : Nat) (hu : u < 2 ^ 64) (hv : v < 2 ^ 64)
    (h : ∀ q, chunk16 u q = chunk16 v q) : u = v := by
  have h0 := h .SHIFT_0
  have h1 := h .SHIFT_16
  have h2 := h .SHIFT_32
  have h3 := h .SHIFT_48
  simp only [chunk16_eq, ShiftAmount.toNat] at h0 h1 h2 h3
  norm_num at h0 h1 h2 h3 hu hv
  omega

theorem chunk16_zero (q : ShiftAmount) : chunk16 0 q = 0 := by
  cases q <;> decide

theorem chunk16_ones (q : ShiftAmount) : chunk16 (2 ^ 64 - 1) q = 0xFFFF := by
  cases q <;> decide

theorem mod_two_pow_64 (Rd : ARM64Reg) (h64 : Is64Bit Rd = true) (v : Nat) (hv : v < 2 ^ 64) :
    v % 2 ^ (if Is64Bit Rd = true then 64 else 32) = v := by
  rw [if_pos h64]
  exact Nat.mod_eq_of_lt hv

theorem MOVI2R_merge_exec (Rd : ARM64Reg) (imm : Nat) (h64 : Is64Bit Rd = true)
    (p : ShiftAmount) (v : Nat) (hv : v < 2 ^ 64) :
    (MOVI2R_merge Rd imm p).exec v < 2 ^ 64 ∧
    ∀ q, chunk16 ((MOVI2R_merge Rd imm p).exec v) q =
      if q = p then chunk16 imm p else chunk16 v q := by
  obtain ⟨hlt, hch⟩ := setChunk16_spec v p (chunk16 imm p) hv (chunk16_lt imm p)
  have hex : (MOVI2R_merge Rd imm p).exec v = setChunk16 v p (chunk16 imm p) := by
    simp only [MOVI2R_merge, MovWide.exec]
    exact mod_two_pow_64 Rd h64 _ hlt
  rw [hex]
  exact ⟨hlt, hch⟩

theorem MOVI2R_merge_execSeq (Rd : ARM64Reg) (imm : Nat) (h64 : Is64Bit Rd = true)
    (rest : List ShiftAmount) (v : Nat) (hv : v < 2 ^ 64) :
    MovWide.execSeq (rest.map (MOVI2R_merge Rd imm)) v < 2 ^ 64 ∧
    ∀ q, chunk16 (MovWide.execSeq (rest.map (MOVI2R_merge Rd imm)) v) q =
      if q ∈ rest then chunk16 imm q else chunk16 v q := by
  induction rest generalizing v with
  | nil => exact ⟨hv, fun q => by simp [MovWide.execSeq]⟩
  | cons p rest ih =>
    obtain ⟨hlt, hch⟩ := MOVI2R_merge_exec Rd imm h64 p v hv
    obtain ⟨hlt2, hch2⟩ := ih ((MOVI2R_merge Rd imm p).exec v) hlt
    have hstep : MovWide.execSeq ((p :: rest).map (MOVI2R_merge Rd imm)) v =
        MovWide.execSeq (rest.map (MOVI2R_merge Rd imm)) ((MOVI2R_merge Rd imm p).exec v) := rfl
    rw [hstep]
    refine ⟨hlt2, ?_⟩
    intro q
    rw [hch2 q, hch q]
    by_cases hq : q ∈ rest
    · simp [hq]
    · by_cases hqp : q = p
      · simp [hqp]
      · simp [hq, hqp]

theorem MOVI2R_base_exec (Rd : ARM64Reg) (imm : Nat) (h64 : Is64Bit Rd = true)
    (p : ShiftAmount) (old : Nat) :
    (MOVI2R_base Rd imm p).exec old < 2 ^ 64 ∧
    ∀ q, chunk16 ((MOVI2R_base Rd imm p).exec old) q =
      if q = p then chunk16 imm p else (if MOVI2R_one_fill imm then 0xFFFF else 0) := by
  have hc := chunk16_lt imm p
  cases hf : MOVI2R_one_fill imm
  · obtain ⟨hlt, hch⟩ := setChunk16_spec 0 p (chunk16 imm p) (by decide) hc
    have hb : MOVI2R_base Rd imm p = MovWide.mk .MOVZ Rd (chunk16 imm p) p := by
      simp [MOVI2R_base, hf]
    have hex : (MOVI2R_base Rd imm p).exec old = setChunk16 0 p (chunk16 imm p) := by
      rw [hb]
      simp only [MovWide.exec]
      exact mod_two_pow_64 Rd h64 _ hlt
    rw [hex]
    refine ⟨hlt, ?_⟩
    intro q
    rw [hch q, chunk16_zero]
    simp
  · have hinv : 0xFFFF - (0xFFFF - chunk16 imm p) = chunk16 imm p := by omega
    obtain ⟨hlt, hch⟩ := setChunk16_spec (2 ^ 64 - 1) p (chunk16 imm p) (by decide) hc
    have hb : MOVI2R_base Rd imm p = MovWide.mk .MOVN Rd (0xFFFF - chunk16 imm p) p := by
      simp [MOVI2R_base, hf]
    have hex : (MOVI2R_base Rd imm p).exec old = setChunk16 (2 ^ 64 - 1) p (chunk16 imm p) := by
      rw [hb]
      simp only [MovWide.exec]
      rw [hinv]
      exact mod_two_pow_64 Rd h64 _ hlt
    rw [hex]
    refine ⟨hlt, ?_⟩
    intro q
    rw [hch q, chunk16_ones]
    simp

theorem mem_MOVI2R_differing (imm : Nat) (q : ShiftAmount) :
    q ∈ MOVI2R_differing imm ↔
      chunk16 imm q ≠ (if MOVI2R_one_fill imm then 0xFFFF else 0) := by
  unfold MOVI2R_differing
  rw [List.mem_filter]
  have hall : q ∈ [ShiftAmount.SHIFT_0, .SHIFT_16, .SHIFT_32, .SHIFT_48] := by
    cases q <;> simp
  simp [hall]

theorem MOVI2R_exec_optimize (Rd : ARM64Reg) (imm : Nat) (h64 : Is64Bit Rd = true)
    (himm : imm < 2 ^ 64) (old : Nat) :
    MovWide.execSeq (ARM64XEmitter.MOVI2R Rd imm true) old = imm := by
  unfold ARM64XEmitter.MOVI2R
  simp only [if_true]
  cases hD : MOVI2R_differing imm with
  | nil =>
    obtain ⟨hlt, hch⟩ := MOVI2R_base_exec Rd imm h64 .SHIFT_0 old
    apply eq_of_chunk16_eq _ _ hlt himm
    intro q
    have hq : ¬ q ∈ MOVI2R_differing imm := by simp [hD]
    rw [mem_MOVI2R_differing] at hq
    have hfill : chunk16 imm q = (if MOVI2R_one_fill imm then 0xFFFF else 0) := by
      simpa using hq
    show chunk16 ((MOVI2R_base Rd imm .SHIFT_0).exec old) q = chunk16 imm q
    rw [hch q]
    by_cases h0 : q = .SHIFT_0
    · simp [h0]
    · simp [h0, hfill]
  | cons p rest =>
    obtain ⟨hlt, hch⟩ := MOVI2R_base_exec Rd imm h64 p old
    obtain ⟨hlt2, hch2⟩ := MOVI2R_merge_execSeq Rd imm h64 rest _ hlt
    show MovWide.execSeq (rest.map (MOVI2R_merge Rd imm)) ((MOVI2R_base Rd imm p).exec old) = imm
    apply eq_of_chunk16_eq _ _ hlt2 himm
    intro q
    rw [hch2 q, hch q]
    by_cases hq : q ∈ rest
    · simp [hq]
    · by_cases hqp : q = p
      · simp [hqp]
      · have hnot : ¬ q ∈ MOVI2R_differing imm := by simp [hD, hq, hqp]
        rw [mem_MOVI2R_differing] at hnot
        have hfill : chunk16 imm q = (if MOVI2R_one_fill imm then 0xFFFF else 0) := by
          simpa using hnot
        simp [hq, hqp, hfill]

theorem MOVI2R_exec_full (Rd : ARM64Reg) (imm : Nat) (h64 : Is64Bit Rd = true)
    (himm : imm < 2 ^ 64) (old : Nat) :
    MovWide.execSeq (ARM64XEmitter.MOVI2R Rd imm false) old = imm := by
  obtain ⟨hlt, hch⟩ := setChunk16_spec 0 .SHIFT_0 (chunk16 imm .SHIFT_0) (by decide)
    (chunk16_lt imm .SHIFT_0)
  have hex : (MovWide.mk .MOVZ Rd (chunk16 imm .SHIFT_0) .SHIFT_0).exec old =
      setChunk16 0 .SHIFT_0 (chunk16 imm .SHIFT_0) := by
    simp only [MovWide.exec]
    exact mod_two_pow_64 Rd h64 _ hlt
  obtain ⟨hlt2, hch2⟩ := MOVI2R_merge_execSeq Rd imm h64
    [ShiftAmount.SHIFT_16, .SHIFT_32, .SHIFT_48] _ hlt
  show MovWide.execSeq ([ShiftAmount.SHIFT_16, .SHIFT_32, .SHIFT_48].map (MOVI2R_merge Rd imm))
    ((MovWide.mk .MOVZ Rd (chunk16 imm .SHIFT_0) .SHIFT_0).exec old) = imm
  rw [hex]
  apply eq_of_chunk16_eq _ _ hlt2 himm
  intro q
  rw [hch2 q, hch q]
  cases q <;> simp

theorem MOVI2R_differing_length (imm : Nat) : (MOVI2R_differing imm).length ≤ 4 := by
  unfold MOVI2R_differing
  exact List.length_filter_le _ _

theorem MOVI2R_Rd (Rd : ARM64Reg) (imm : Nat) (optimize : Bool) (i : MovWide)
    (hi : i ∈ ARM64XEmitter.MOVI2R Rd imm optimize) : i.Rd = Rd := by
  have hbase : ∀ p, (MOVI2R_base Rd imm p).Rd = Rd := by
    intro p
    unfold MOVI2R_base
    split <;> rfl
  have hmerge : ∀ (l : List ShiftAmount) (j : MovWide),
      j ∈ l.map (MOVI2R_merge Rd imm) → j.Rd = Rd := by
    intro l j hj
    obtain ⟨p, _, hp⟩ := List.mem_map.mp hj
    rw [← hp]
    rfl
  unfold ARM64XEmitter.MOVI2R at hi
  cases optimize
  · simp only [Bool.false_eq_true, if_false, List.mem_cons] at hi
    rcases hi with h | h
    · rw [h]
    · exact hmerge _ i h
  · simp only [if_true] at hi
    cases hD : MOVI2R_differing imm with
    | nil =>
      rw [hD] at hi
      simp only [List.mem_singleton] at hi
      rw [hi]
      exact hbase _
    | cons p rest =>
      rw [hD] at hi
      simp only [List.mem_cons] at hi
      rcases hi with h | h
      · rw [h]
        exact hbase _
      · exact hmerge _ i h

/-- C19: for a 64-bit destination `Rd` and a 64-bit constant `imm`, executing the
move-wide sequence of `MOVI2R(Rd, imm)` leaves the destination equal to `imm`, whatever
it held before and for either value of `optimize`, and every instruction of the sequence
writes `Rd`. With `optimize = true` the sequence is one base instruction (`MOVZ` for the
zero fill, `MOVN` for the one fill) for the first chunk that differs from the chosen fill
followed by one `MOVK` per remaining differing chunk, so it has at most 4 instructions. -/
theorem MOVI2R_spec (Rd : ARM64Reg) (imm : Nat) (h64 : Is64Bit Rd = true)
    (himm : imm < 2 ^ 64) :
    (∀ optimize old, MovWide.execSeq (ARM64XEmitter.MOVI2R Rd imm optimize) old = imm) ∧
    (∀ optimize i, i ∈ ARM64XEmitter.MOVI2R Rd imm optimize → i.Rd = Rd) ∧
    (∀ p rest, MOVI2R_differing imm = p :: rest →
      ARM64XEmitter.MOVI2R Rd imm true =
        MOVI2R_base Rd imm p :: rest.map (MOVI2R_merge Rd imm)) ∧
    (∀ p, (MOVI2R_base Rd imm p).op = (if MOVI2R_one_fill imm then .MOVN else .MOVZ) ∧
      (MOVI2R_base Rd imm p).pos = p ∧
      (MOVI2R_merge Rd imm p) = MovWide.mk .MOVK Rd (chunk16 imm p) p) ∧
    (∀ q, q ∈ MOVI2R_differing imm ↔
      chunk16 imm q ≠ (if MOVI2R_one_fill imm then 0xFFFF else 0)) ∧
    (ARM64XEmitter.MOVI2R Rd imm true).length = max 1 (MOVI2R_differing imm).length ∧
    (ARM64XEmitter.MOVI2R Rd imm true).length ≤ 4 := by
  have hlen : (ARM64XEmitter.MOVI2R Rd imm true).length = max 1 (MOVI2R_differing imm).length := by
    unfold ARM64XEmitter.MOVI2R
    simp only [if_true]
    cases hD : MOVI2R_differing imm with
    | nil => rfl
    | cons p rest =>
      simp only [List.length_cons, List.length_map]
      omega
  refine ⟨?_, fun optimize i hi => MOVI2R_Rd Rd imm optimize i hi, ?_, ?_,
    mem_MOVI2R_differing imm, hlen, ?_⟩
  · intro optimize old
    cases optimize
    · exact MOVI2R_exec_full Rd imm h64 himm old
    · exact MOVI2R_exec_optimize Rd imm h64 himm old
  · intro p rest hD
    unfold ARM64XEmitter.MOVI2R
    simp only [if_true]
    rw [hD]
  · intro p
    refine ⟨?_, ?_, rfl⟩
    · unfold MOVI2R_base
      split <;> rfl
    · unfold MOVI2R_base
      split <;> rfl
  · rw [hlen]
    have := MOVI2R_differing_length imm
    omega

/-- Witness for C19: `MOVI2R(X0, 0x0000FFFF12340000)` is `MOVZ X0, #0x1234, LSL 16` then
`MOVK X0, #0xFFFF, LSL 32`, and executing it gives the constant. -/
theorem MOVI2R_spec_witness :
    ARM64XEmitter.MOVI2R X0 0x0000FFFF12340000 true =
      [⟨.MOVZ, X0, 0x1234, .SHIFT_16⟩, ⟨.MOVK, X0, 0xFFFF, .SHIFT_32⟩] ∧
    MovWide.execSeq (ARM64XEmitter.MOVI2R X0 0x0000FFFF12340000 true) 77 =
      0x0000FFFF12340000 ∧
    MovWide.execSeq (ARM64XEmitter.MOVI2R X0 0xFFFFFFFF1234FFFF true) 77 =
      0xFFFFFFFF1234FFFF :=
  ⟨by decide,
    (MOVI2R_spec X0 0x0000FFFF12340000 (by decide) (by decide)).1 true 77,
    (MOVI2R_spec X0 0xFFFFFFFF1234FFFF (by decide) (by decide)).1 true 77⟩

/-! ## Operand descriptor: out-of-range shifts, field containment, injectivity -/

/-- C21 (as stated, refuted): a shift amount above the register width is encoded, not
rejected: `ArithOption(X1, ST_LSL, 65)` and `ArithOption(W1, ST_ROR, 33)` both return
bits from `GetData` (`65 << 10` reaches bit 16, outside the shift-amount field). -/
theorem GetData_shift_above_width_not_rejected :
    (ArithOption.ArithOption_shift ⟨0, .WIDTH_DEFAULT, .EXTEND_UXTB, .TYPE_IMM, .ST_LSL, 0⟩
      X1 .ST_LSL 65).GetData = .ok 0x10400 ∧
    (ArithOption.ArithOption_shift ⟨0, .WIDTH_DEFAULT, .EXTEND_UXTB, .TYPE_IMM, .ST_LSL, 0⟩
      W1 .ST_ROR 33).GetData = .ok 0xC08400 :=
  ⟨rfl, rfl⟩

/-- C21 (amended): for a shift amount `s` greater than the register width neither the
constructor nor `GetData` raises a diagnostic; `GetData` returns
`(kind << 22) | ((s << 10) mod 2^32)`. -/
theorem GetData_shift_above_width (uninit : ArithOption) (Rd : ARM64Reg) (k : ShiftType)
    (s : Nat) (hs : (if Is64Bit Rd then 64 else 32) < s) :
    (ArithOption.ArithOption_shift uninit Rd k s).m_shift = s ∧
    (ArithOption.ArithOption_shift uninit Rd k s).GetData =
      .ok ((k.toNat <<< 22) ||| ((s <<< 10) % 2 ^ 32)) := by
  have hne : ¬ s = (if Is64Bit Rd then 64 else 32) := Nat.ne_of_gt hs
  obtain ⟨_, _, hm, _⟩ := ArithOption_shift_fields uninit Rd k s
  refine ⟨?_, ?_⟩
  · rw [hm, if_neg hne]
  · rw [GetData_shift_eq, if_neg hne]
    rfl

/-- Witness for C21 (amended): `ASR #100` on `X2`. -/
theorem GetData_shift_above_width_witness :
    (ArithOption.ArithOption_shift ⟨0, .WIDTH_DEFAULT, .EXTEND_UXTB, .TYPE_IMM, .ST_LSL, 0⟩
      X2 .ST_ASR 100).GetData = .ok 0x819000 :=
  (GetData_shift_above_width ⟨0, .WIDTH_DEFAULT, .EXTEND_UXTB, .TYPE_IMM, .ST_LSL, 0⟩
    X2 .ST_ASR 100 (by decide)).2.trans rfl

/-- C24: every operand produced by a public constructor has type `TYPE_EXTENDEDREG`
(register and index flag) or `TYPE_SHIFTEDREG` (register, shift kind and amount), never
`TYPE_IMM`, and `GetData` on it returns bits without reaching the "Invalid type"
assertion. -/
theorem constructors_valid_type (uninit : ArithOption) (Rd : ARM64Reg) :
    (∀ index : Bool,
      (ArithOption.ArithOption_ext uninit Rd index).GetType = .TYPE_EXTENDEDREG ∧
      (ArithOption.ArithOption_ext uninit Rd index).GetType ≠ .TYPE_IMM ∧
      ∃ v, (ArithOption.ArithOption_ext uninit Rd index).GetData = .ok v) ∧
    (∀ (shift_type : ShiftType) (shift : Nat),
      (ArithOption.ArithOption_shift uninit Rd shift_type shift).GetType = .TYPE_SHIFTEDREG ∧
      (ArithOption.ArithOption_shift uninit Rd shift_type shift).GetType ≠ .TYPE_IMM ∧
      ∃ v, (ArithOption.ArithOption_shift uninit Rd shift_type shift).GetData = .ok v) := by
  constructor
  · intro index
    have ht : (ArithOption.ArithOption_ext uninit Rd index).GetType = .TYPE_EXTENDEDREG :=
      (ArithOption_ext_fields uninit Rd index).1
    refine ⟨ht, ?_, _, GetData_ext_eq uninit Rd index⟩
    rw [ht]
    decide
  · intro shift_type shift
    have ht : (ArithOption.ArithOption_shift uninit Rd shift_type shift).GetType =
        .TYPE_SHIFTEDREG := (ArithOption_shift_fields uninit Rd shift_type shift).1
    refine ⟨ht, ?_, _, GetData_shift_eq uninit Rd shift_type shift⟩
    rw [ht]
    decide

set_option maxRecDepth 100000 in
theorem shifted_bits_table :
    ∀ k, k < 4 → ∀ s, s < 64 →
      ((k <<< 22) ||| (s <<< 10)) >>> 22 = k ∧
      (((k <<< 22) ||| (s <<< 10)) >>> 10) &&& 0x3F = s ∧
      ((k <<< 22) ||| (s <<< 10)) &&& 0xC0FC00 = ((k <<< 22) ||| (s <<< 10)) ∧
      ((k <<< 22) ||| (s <<< 10)) &&& not32 0xC0FC00 = 0 ∧
      ((k <<< 22) ||| (s <<< 10)) &&& 0x1F = 0 ∧
      ((k <<< 22) ||| (s <<< 10)) &&& 0x3E0 = 0 ∧
      ((k <<< 22) ||| (s <<< 10)) &&& 0x1F0000 = 0 ∧
      ((k <<< 22) ||| (s <<< 10)) &&& 0xFF200000 = 0 := by
  decide

theorem ShiftType_toNat_lt (k : ShiftType) : k.toNat < 4 := by
  cases k <;> decide

theorem ShiftType_toNat_inj (k1 k2 : ShiftType) (h : k1.toNat = k2.toNat) : k1 = k2 := by
  cases k1 <;> cases k2 <;> first | rfl | (simp [ShiftType.toNat] at h)

theorem or_and_of_and_eq_zero (w v m : Nat) (h : v &&& m = 0) : (w ||| v) &&& m = w &&& m := by
  apply Nat.eq_of_testBit_eq
  intro i
  have hi : (v &&& m).testBit i = false := by
    rw [h]
    exact Nat.zero_testBit i
  rw [Nat.testBit_and] at hi
  rw [Nat.testBit_and, Nat.testBit_and, Nat.testBit_or]
  cases hw : w.testBit i <;> cases hv : v.testBit i <;> cases hm : m.testBit i <;>
    simp_all

/-- The bits `GetData` returns for a shifted-register operand whose shift amount does not
exceed the register width: `(k << 22) | (n << 10)` with `n < 64` the stored amount. -/
theorem GetData_shift_le_width (uninit : ArithOption) (Rd : ARM64Reg) (k : ShiftType)
    (s : Nat) (hs : s ≤ (if Is64Bit Rd then 64 else 32)) :
    ∃ n, n < 64 ∧ (s < (if Is64Bit Rd then 64 else 32) → n = s) ∧
      (ArithOption.ArithOption_shift uninit Rd k s).GetData =
        .ok ((k.toNat <<< 22) ||| (n <<< 10)) := by
  refine ⟨if s = (if Is64Bit Rd then 64 else 32) then 0 else s, ?_, ?_, ?_⟩
  · by_cases h : s = (if Is64Bit Rd then 64 else 32)
    · simp [h]
    · rw [if_neg h]
      have : (if Is64Bit Rd then 64 else 32) ≤ 64 := by
        cases Is64Bit Rd <;> simp
      omega
  · intro hlt
    rw [if_neg (Nat.ne_of_lt hlt)]
  · rw [GetData_shift_eq, shl32_of_le_64]
    by_cases h : s = (if Is64Bit Rd then 64 else 32)
    · simp [h]
    · rw [if_neg h]
      have : (if Is64Bit Rd then 64 else 32) ≤ 64 := by
        cases Is64Bit Rd <;> simp
      omega

/-- C25: for a shift amount not exceeding the width of `Rd`, the bits `GetData` returns
for `ArithOption(Rd, kind, s)` lie in the shift-kind field (bits 22..23) and the 6-bit
shift-amount field (bits 10..15) only, so OR-ing them into a word `w` leaves its `Rd`
(bits 0..4), `Rn` (bits 5..9), `Rm` (bits 16..20) and opcode (bit 21, bits 24..31) fields,
and every other bit outside the two fields, as they were. -/
theorem GetData_shifted_containment (uninit : ArithOption) (Rd : ARM64Reg) (k : ShiftType)
    (s : Nat) (hs : s ≤ (if Is64Bit Rd then 64 else 32)) :
    ∃ v, (ArithOption.ArithOption_shift uninit Rd k s).GetData = .ok v ∧
      0xC0FC00 = (3 <<< 22) ||| (0x3F <<< 10) ∧
      v &&& 0xC0FC00 = v ∧
      v &&& not32 0xC0FC00 = 0 ∧
      ∀ w, (w ||| v) &&& not32 0xC0FC00 = w &&& not32 0xC0FC00 ∧
        (w ||| v) &&& 0x1F = w &&& 0x1F ∧
        (w ||| v) &&& 0x3E0 = w &&& 0x3E0 ∧
        (w ||| v) &&& 0x1F0000 = w &&& 0x1F0000 ∧
        (w ||| v) &&& 0xFF200000 = w &&& 0xFF200000 := by
  obtain ⟨n, hn, _, hv⟩ := GetData_shift_le_width uninit Rd k s hs
  obtain ⟨_, _, h1, h2, h3, h4, h5, h6⟩ := shifted_bits_table k.toNat (ShiftType_toNat_lt k) n hn
  refine ⟨_, hv, by decide, h1, h2, ?_⟩
  intro w
  exact ⟨or_and_of_and_eq_zero w _ _ h2, or_and_of_and_eq_zero w _ _ h3,
    or_and_of_and_eq_zero w _ _ h4, or_and_of_and_eq_zero w _ _ h5,
    or_and_of_and_eq_zero w _ _ h6⟩

/-- Witness for C25: `LSR #64` on `X1`, normalized to amount 0, has only bit 22 set. -/
theorem GetData_shifted_containment_witness :
    ∃ v, (ArithOption.ArithOption_shift
        ⟨0, .WIDTH_DEFAULT, .EXTEND_UXTB, .TYPE_IMM, .ST_LSL, 0⟩ X1 .ST_LSR 64).GetData =
        .ok v ∧ v &&& 0xC0FC00 = v ∧ (0x8B020020 ||| v) &&& 0x1F0000 = 0x8B020020 &&& 0x1F0000 :=
  (GetData_shifted_containment ⟨0, .WIDTH_DEFAULT, .EXTEND_UXTB, .TYPE_IMM, .ST_LSL, 0⟩
    X1 .ST_LSR 64 (by decide)).elim
    (fun v h => ⟨v, h.1, h.2.2.1, (h.2.2.2.2 0x8B020020).2.2.2.1⟩)

/-- C26: the shifted-register encoding is injective on legal operands: if the shift
amounts are strictly below the widths of their registers (in particular for two
registers of the same width) and `GetData` agrees, then the shift kinds agree and the
shift amounts agree. -/
theorem GetData_shifted_injective (u1 u2 : ArithOption) (Rd1 Rd2 : ARM64Reg)
    (k1 k2 : ShiftType) (s1 s2 : Nat)
    (h1 : s1 < (if Is64Bit Rd1 then 64 else 32))
    (h2 : s2 < (if Is64Bit Rd2 then 64 else 32))
    (h : (ArithOption.ArithOption_shift u1 Rd1 k1 s1).GetData =
      (ArithOption.ArithOption_shift u2 Rd2 k2 s2).GetData) :
    k1 = k2 ∧ s1 = s2 := by
  obtain ⟨n1, hn1, he1, hv1⟩ := GetData_shift_le_width u1 Rd1 k1 s1 (Nat.le_of_lt h1)
  obtain ⟨n2, hn2, he2, hv2⟩ := GetData_shift_le_width u2 Rd2 k2 s2 (Nat.le_of_lt h2)
  rw [hv1, hv2] at h
  have hv : (k1.toNat <<< 22) ||| (n1 <<< 10) = (k2.toNat <<< 22) ||| (n2 <<< 10) :=
    DbgAssert.ok.inj h
  obtain ⟨ha1, hb1, _⟩ := shifted_bits_table k1.toNat (ShiftType_toNat_lt k1) n1 hn1
  obtain ⟨ha2, hb2, _⟩ := shifted_bits_table k2.toNat (ShiftType_toNat_lt k2) n2 hn2
  refine ⟨ShiftType_toNat_inj k1 k2 ?_, ?_⟩
  · rw [← ha1, ← ha2, hv]
  · rw [← he1 h1, ← he2 h2, ← hb1, ← hb2, hv]

/-- Witness for C26: `ROR #7` on `X1` and on `X2` encode alike, as `0xC01C00`. -/
theorem GetData_shifted_injective_witness :
    (ArithOption.ArithOption_shift ⟨0, .WIDTH_DEFAULT, .EXTEND_UXTB, .TYPE_IMM, .ST_LSL, 0⟩
      X1 .ST_ROR 7).GetData = .ok 0xC01C00 ∧
    (ArithOption.ArithOption_shift ⟨9, .WIDTH_32BIT, .EXTEND_SXTX, .TYPE_IMM, .ST_ASR, 3⟩
      X2 .ST_ROR 7).GetData = .ok 0xC01C00 ∧
    (ShiftType.ST_ROR = ShiftType.ST_ROR ∧ 7 = 7) :=
  ⟨rfl, rfl,
    GetData_shifted_injective ⟨0, .WIDTH_DEFAULT, .EXTEND_UXTB, .TYPE_IMM, .ST_LSL, 0⟩
      ⟨9, .WIDTH_32BIT, .EXTEND_SXTX, .TYPE_IMM, .ST_ASR, 3⟩ X1 X2 .ST_ROR .ST_ROR 7 7
      (by decide) (by decide) rfl⟩

/-! ## Register descriptor: named constants and vector views -/

set_option maxRecDepth 100000 in
theorem named_constants_table :
    ∀ N, N < 32 →
      (regsW.get? N).map (fun r => ((r >>> 5) &&& 7, r &&& 0x1F)) = some (0, N) ∧
      (regsX.get? N).map (fun r => ((r >>> 5) &&& 7, r &&& 0x1F)) = some (1, N) ∧
      (regsS.get? N).map (fun r => ((r >>> 5) &&& 7, r &&& 0x1F)) = some (2, N) ∧
      (regsD.get? N).map (fun r => ((r >>> 5) &&& 7, r &&& 0x1F)) = some (4, N) ∧
      (regsQ.get? N).map (fun r => ((r >>> 5) &&& 7, r &&& 0x1F)) = some (6, N) := by
  decide

set_option maxRecDepth 100000 in
theorem named_constants_classes :
    (∀ r, r ∈ regsS ++ regsD ++ regsQ → Is64Bit r = false) ∧
    (∀ r, r ∈ regsW ++ regsX → IsVector r = false) := by
  decide

/-- C22: every named register constant is `<3-bit type><5-bit index>` with the documented
type code: for `N < 32` the `N`-th W, X, S, D, Q register has bits 5..7 equal to `000`,
`001`, `010`, `100`, `110` and low five bits equal to `N` (`WSP` and `SP` being index 31);
so `Is64Bit` is false on every named vector register and `IsVector` is false on every
named general register. -/
theorem named_constants_layout (N : Nat) (h : N < 32) :
    ((regsW.get? N).map (fun r => ((r >>> 5) &&& 7, r &&& 0x1F)) = some (0b000, N) ∧
      (regsX.get? N).map (fun r => ((r >>> 5) &&& 7, r &&& 0x1F)) = some (0b001, N) ∧
      (regsS.get? N).map (fun r => ((r >>> 5) &&& 7, r &&& 0x1F)) = some (0b010, N) ∧
      (regsD.get? N).map (fun r => ((r >>> 5) &&& 7, r &&& 0x1F)) = some (0b100, N) ∧
      (regsQ.get? N).map (fun r => ((r >>> 5) &&& 7, r &&& 0x1F)) = some (0b110, N)) ∧
    regsW.get? 31 = some WSP ∧ regsX.get? 31 = some SP ∧
    regsW.length = 32 ∧ regsX.length = 32 ∧ regsS.length = 32 ∧ regsD.length = 32 ∧
    regsQ.length = 32 ∧
    (∀ r, r ∈ regsS ++ regsD ++ regsQ → Is64Bit r = false) ∧
    (∀ r, r ∈ regsW ++ regsX → IsVector r = false) :=
  ⟨named_constants_table N h, rfl, rfl, rfl, rfl, rfl, rfl, rfl,
    named_constants_classes.1, named_constants_classes.2⟩

/-- Witness for C22 at index 17: `W17`, `X17`, `S17`, `D17`, `Q17`. -/
theorem named_constants_layout_witness :
    ((W17 >>> 5) &&& 7, W17 &&& 0x1F) = (0, 17) ∧ ((Q17 >>> 5) &&& 7, Q17 &&& 0x1F) = (6, 17) ∧
    regsD.get? 17 = some D17 ∧ Is64Bit S17 = false ∧ IsVector X17 = false :=
  have h := named_constants_layout 17 (by decide)
  ⟨by decide, by decide, by decide, h.2.2.2.2.2.2.2.2.1 S17 (by decide),
    h.2.2.2.2.2.2.2.2.2 X17 (by decide)⟩

/-- C23 (as stated, refuted): on the named 64-bit general register `X1` the vector-view
helpers keep bit 5: `EncodeRegToDouble(X1)` is `0xA1`, not `D1 = 0x81`, and
`EncodeRegToQuad(X1)` is `0xE1`, not `Q1 = 0xC1`. -/
theorem EncodeReg_vector_view_X1 :
    X1 ∈ namedRegs ∧ DecodeReg X1 = 1 ∧
    EncodeRegToDouble X1 = 0xA1 ∧ EncodeRegToDouble X1 ≠ 0x80 + DecodeReg X1 ∧
    EncodeRegToQuad X1 = 0xE1 ∧ EncodeRegToQuad X1 ≠ 0xC0 + DecodeReg X1 := by
  decide

set_option maxRecDepth 100000 in
theorem EncodeReg_vector_view_table :
    (∀ r, r ∈ regsW ++ regsS ++ regsD ++ regsQ →
      EncodeRegToDouble r = 0x80 + DecodeReg r ∧ EncodeRegToQuad r = 0xC0 + DecodeReg r ∧
      regsD.get? (DecodeReg r) = some (EncodeRegToDouble r) ∧
      regsQ.get? (DecodeReg r) = some (EncodeRegToQuad r)) ∧
    (∀ r, r ∈ regsX →
      EncodeRegToDouble r = 0xA0 + DecodeReg r ∧ EncodeRegToQuad r = 0xE0 + DecodeReg r) := by
  decide

/-- C23 (amended): for every named register `r` of class W, S, D or Q, the vector views
are the D and Q registers with the index of `r`: `EncodeRegToDouble(r)` is
`0x80 + DecodeReg(r)` and `EncodeRegToQuad(r)` is `0xC0 + DecodeReg(r)`. On a named X
register both helpers keep bit 5 and give `0xA0 + DecodeReg(r)` and `0xE0 + DecodeReg(r)`. -/
theorem EncodeReg_vector_view (r : ARM64Reg) :
    (r ∈ regsW ++ regsS ++ regsD ++ regsQ →
      EncodeRegToDouble r = 0x80 + DecodeReg r ∧ EncodeRegToQuad r = 0xC0 + DecodeReg r ∧
      regsD.get? (DecodeReg r) = some (EncodeRegToDouble r) ∧
      regsQ.get? (DecodeReg r) = some (EncodeRegToQuad r)) ∧
    (r ∈ regsX →
      EncodeRegToDouble r = 0xA0 + DecodeReg r ∧ EncodeRegToQuad r = 0xE0 + DecodeReg r) :=
  ⟨EncodeReg_vector_view_table.1 r, EncodeReg_vector_view_table.2 r⟩

/-- Witness for C23 (amended): the views of `S5` are `D5` and `Q5`. -/
theorem EncodeReg_vector_view_witness :
    EncodeRegToDouble S5 = D5 ∧ EncodeRegToQuad S5 = Q5 :=
  have h := (EncodeReg_vector_view S5).1 (by decide)
  ⟨h.1.trans (by decide), h.2.1.trans (by decide)⟩

end Arm64Gen

namespace ControllerInterface

/-! ## `AddDevice`: the id loop -/

theorem AddDevice_pred_iff (objs : Objects) (device : Nat) (id : Int) (d : Nat) :
    AddDevice_pred objs device id d = true ↔
      (objs d).source = (objs device).source ∧ (objs d).name = (objs device).name ∧
        (objs d).id = id := by
  simp [AddDevice_pred, and_assoc]

theorem countP_lt_countP {α : Type} (l : List α) (p q : α → Bool)
    (hpq : ∀ x, p x = true → q x = true) (a : α) (ha : a ∈ l) (hq : q a = true)
    (hp : p a = false) : l.countP p < l.countP q := by
  induction l with
  | nil => simp at ha
  | cons x xs ih =>
    rw [List.countP_cons, List.countP_cons]
    have hmono : xs.countP p ≤ xs.countP q := List.countP_mono_left (fun y _ h => hpq y h)
    rcases List.mem_cons.mp ha with h | h
    · subst h
      simp [hq, hp]
      omega
    · have := ih h
      cases hpx : p x
      · simp
        omega
      · simp [hpq x hpx]
        omega

/-- The loop of `AddDevice` ends when the fuel exceeds the number of entries with the
source and name of `device` and an id of at least `id`, the measure that decreases with
every iteration; it ends at the least free id from `id` on. -/
theorem AddDevice_loop_spec (objs : Objects) (m_devices : List Nat) (device : Nat)
    (fuel : Nat) (id : Int)
    (hfuel : m_devices.countP (fun d => (objs d).source == (objs device).source &&
      (objs d).name == (objs device).name && decide (id ≤ (objs d).id)) < fuel) :
    ∃ r, AddDevice_loop objs m_devices device fuel id = some r ∧ id ≤ r ∧
      r ≤ id + (m_devices.countP (fun d => (objs d).source == (objs device).source &&
        (objs d).name == (objs device).name && decide (id ≤ (objs d).id)) : Nat) ∧
      m_devices.find? (AddDevice_pred objs device r) = none ∧
      ∀ j, id ≤ j → j < r → ∃ d, d ∈ m_devices ∧ AddDevice_pred objs device j d = true := by
  induction fuel generalizing id with
  | zero => omega
  | succ fuel ih =>
    unfold AddDevice_loop
    cases hfind : m_devices.find? (AddDevice_pred objs device id) with
    | none =>
      refine ⟨id, rfl, Int.le_refl id, by omega, hfind, ?_⟩
      intro j h1 h2
      omega
    | some d =>
      have hd : AddDevice_pred objs device id d = true := List.find?_some hfind
      have hmem : d ∈ m_devices := List.mem_of_find?_eq_some hfind
      obtain ⟨hs, hn, hi⟩ := (AddDevice_pred_iff objs device id d).mp hd
      have hlt : m_devices.countP (fun d => (objs d).source == (objs device).source &&
            (objs d).name == (objs device).name && decide (id + 1 ≤ (objs d).id)) <
          m_devices.countP (fun d => (objs d).source == (objs device).source &&
            (objs d).name == (objs device).name && decide (id ≤ (objs d).id)) := by
        apply countP_lt_countP _ _ _ _ d hmem
        · simp [hs, hn, hi]
        · simp [hs, hn, hi]
        · intro x hx
          simp only [Bool.and_eq_true, decide_eq_true_eq] at hx ⊢
          exact ⟨hx.1, by omega⟩
      obtain ⟨r, hr, h1, h2, h3, h4⟩ := ih (id + 1) (by omega)
      refine ⟨r, hr, by omega, by omega, h3, ?_⟩
      intro j hj1 hj2
      by_cases hj : j = id
      · subst hj
        exact ⟨d, hmem, hd⟩
      · exact h4 j (by omega) hj2

theorem AddDevice_spec (objs : Objects) (m_devices : List Nat) (device : Nat) :
    ∃ id : Int,
      AddDevice objs m_devices device = some (SetId objs device id, m_devices ++ [device]) ∧
      0 ≤ id ∧ id ≤ (m_devices.length : Int) ∧
      (∀ d, d ∈ m_devices →
        ¬ ((objs d).source = (objs device).source ∧ (objs d).name = (objs device).name ∧
          (objs d).id = id)) ∧
      (∀ j : Int, 0 ≤ j → j < id →
        ∃ d, d ∈ m_devices ∧ (objs d).source = (objs device).source ∧
          (objs d).name = (objs device).name ∧ (objs d).id = j) := by
  have hcnt : m_devices.countP (fun d => (objs d).source == (objs device).source &&
      (objs d).name == (objs device).name && decide ((0 : Int) ≤ (objs d).id)) ≤
      m_devices.length := List.countP_le_length _
  obtain ⟨r, hr, h1, h2, h3, h4⟩ :=
    AddDevice_loop_spec objs m_devices device (m_devices.length + 1) 0 (by omega)
  refine ⟨r, ?_, h1, by omega, ?_, ?_⟩
  · unfold AddDevice
    rw [hr]
  · intro d hd hkey
    have := List.find?_eq_none.mp h3 d hd
    exact this ((AddDevice_pred_iff objs device r d).mpr hkey)
  · intro j hj1 hj2
    obtain ⟨d, hd, hp⟩ := h4 j hj1 hj2
    exact ⟨d, hd, (AddDevice_pred_iff objs device j d).mp hp⟩

theorem SetId_other (objs : Objects) (device : Nat) (id : Int) (p : Nat) (hp : p ≠ device) :
    SetId objs device id p = objs p := by
  unfold SetId
  rw [if_neg hp]

theorem SetId_self (objs : Objects) (device : Nat) (id : Int) :
    SetId objs device id device =
      { source := (objs device).source, name := (objs device).name, id := id } := by
  unfold SetId
  rw [if_pos rfl]

theorem map_SetId_of_not_mem (objs : Objects) (device : Nat) (id : Int) (l : List Nat)
    (h : device ∉ l) : l.map (SetId objs device id) = l.map objs := by
  apply List.map_congr_left
  intro p hp
  apply SetId_other
  intro hpd
  exact h (hpd ▸ hp)

/-! ## `AddDevice`: identities -/

/-- C27 (as stated, refuted): when the pointer handed to `AddDevice` is already an entry
of the list, `SetId` renumbers the object of that entry and the pointer is appended once
more: from the one-entry list `[7]` with identity `(SDL, pad, 0)`, which has no
duplicate, the call leaves the list `[7, 7]` with the identity `(SDL, pad, 1)` twice. -/
theorem AddDevice_listed_device_duplicates :
    (keys (fun _ => ⟨"SDL", "pad", 0⟩) [7]).Nodup ∧
    ∃ r, AddDevice (fun _ => ⟨"SDL", "pad", 0⟩) [7] 7 = some r ∧
      r.2 = [7, 7] ∧
      keys r.1 r.2 = [("SDL", "pad", 1), ("SDL", "pad", 1)] ∧
      ¬ (keys r.1 r.2).Nodup :=
  ⟨by decide, (SetId (fun _ => ⟨"SDL", "pad", 0⟩) 7 1, [7, 7]), rfl, rfl, by decide,
    by decide⟩

/-- C27 (amended): `AddDevice` keeps device identities unique for every device added
that is not already an entry of the list: if no two entries share a `(source, name, id)`
triple before the call, then the call returns, and no two entries share a triple after it
exactly when the added pointer was not an entry before. -/
theorem AddDevice_unique (objs : Objects) (m_devices : List Nat) (device : Nat)
    (h : (keys objs m_devices).Nodup) :
    ∃ r, AddDevice objs m_devices device = some r ∧
      ((keys r.1 r.2).Nodup ↔ device ∉ m_devices) := by
  obtain ⟨id, hadd, _, _, hfree, _⟩ := AddDevice_spec objs m_devices device
  refine ⟨_, hadd, ?_⟩
  show ((m_devices ++ [device]).map (fun p => (SetId objs device id p).key)).Nodup ↔
    device ∉ m_devices
  constructor
  · intro hnodup hmem
    have hl : (m_devices ++ [device]).Nodup := List.Nodup.of_map _ hnodup
    rw [List.nodup_append] at hl
    exact hl.2.2 hmem (List.mem_singleton.mpr rfl)
  · intro hnew
    have hold : m_devices.map (fun p => (SetId objs device id p).key) =
        keys objs m_devices := by
      unfold keys
      apply List.map_congr_left
      intro p hp
      rw [SetId_other objs device id p (fun hpd => hnew (hpd ▸ hp))]
    rw [List.map_append, hold, List.nodup_append]
    refine ⟨h, by simp, ?_⟩
    intro k hk1 hk2
    obtain ⟨d, hd, hdk⟩ := List.mem_map.mp hk1
    simp only [List.map_cons, List.map_nil, List.mem_singleton] at hk2
    rw [hk2, SetId_self] at hdk
    simp only [Device.key, Prod.mk.injEq] at hdk
    exact hfree d hd hdk

/-- Witness for C27 (amended): a third "SDL/pad" object, not in the list, joins two of them
and an "XInput/pad". -/
theorem AddDevice_unique_witness :
    (keys (fun p => if p = 1 then ⟨"SDL", "pad", 0⟩ else if p = 2 then ⟨"SDL", "pad", 2⟩
      else if p = 3 then ⟨"XInput", "pad", 1⟩ else ⟨"SDL", "pad", 77⟩) [1, 2, 3]).Nodup ∧
    ∃ r,
      AddDevice (fun p => if p = 1 then ⟨"SDL", "pad", 0⟩ else if p = 2 then ⟨"SDL", "pad", 2⟩
        else if p = 3 then ⟨"XInput", "pad", 1⟩ else ⟨"SDL", "pad", 77⟩) [1, 2, 3] 4 = some r ∧
      (keys r.1 r.2).Nodup :=
  ⟨by decide,
    (AddDevice_unique (fun p => if p = 1 then ⟨"SDL", "pad", 0⟩
      else if p = 2 then ⟨"SDL", "pad", 2⟩
      else if p = 3 then ⟨"XInput", "pad", 1⟩ else ⟨"SDL", "pad", 77⟩) [1, 2, 3] 4
      (by decide)).elim (fun r hr => ⟨r, hr.1, hr.2.mpr (by decide)⟩)⟩

/-- C28 (as stated, refuted): when the pointer handed to `AddDevice` is already an entry
of the list, the id of that existing entry changes: the entry of the list `[7]` has id 0
before the call and id 1 after it, in the list `[7, 7]`. -/
theorem AddDevice_listed_device_renumbered :
    ((fun _ => ⟨"SDL", "pad", 0⟩ : Objects) 7).id = 0 ∧
    ∃ r, AddDevice (fun _ => ⟨"SDL", "pad", 0⟩) [7] 7 = some r ∧
      r.2.take 1 = [7] ∧ (r.1 7).id = 1 ∧
      r.2.map r.1 = [⟨"SDL", "pad", 1⟩, ⟨"SDL", "pad", 1⟩] :=
  ⟨rfl, (SetId (fun _ => ⟨"SDL", "pad", 0⟩) 7 1, [7, 7]), rfl, rfl, rfl, by decide⟩

/-- C28 (amended): `AddDevice` terminates on every device list and gives the added device
the least non-negative id not used, before the call, by an entry with its source and name
(an id that is at most the number of entries); it appends the device at the end of the
list and leaves the earlier entries and their order unchanged; it writes no object other
than the added one, so when the added device is not already an entry, the listed devices
and their ids are as before. -/
theorem AddDevice_least_id (objs : Objects) (m_devices : List Nat) (device : Nat) :
    ∃ id : Int,
      AddDevice objs m_devices device = some (SetId objs device id, m_devices ++ [device]) ∧
      0 ≤ id ∧ id ≤ (m_devices.length : Int) ∧
      (∀ d, d ∈ m_devices →
        ¬ ((objs d).source = (objs device).source ∧ (objs d).name = (objs device).name ∧
          (objs d).id = id)) ∧
      (∀ j : Int, 0 ≤ j → j < id →
        ∃ d, d ∈ m_devices ∧ (objs d).source = (objs device).source ∧
          (objs d).name = (objs device).name ∧ (objs d).id = j) ∧
      (m_devices ++ [device]).take m_devices.length = m_devices ∧
      (m_devices ++ [device]).drop m_devices.length = [device] ∧
      SetId objs device id device =
        { source := (objs device).source, name := (objs device).name, id := id } ∧
      (∀ p, p ≠ device → SetId objs device id p = objs p) ∧
      (device ∉ m_devices → m_devices.map (SetId objs device id) = m_devices.map objs) := by
  obtain ⟨id, hadd, h0, hlen, hfree, hleast⟩ := AddDevice_spec objs m_devices device
  exact ⟨id, hadd, h0, hlen, hfree, hleast, List.take_left _ _, List.drop_left _ _,
    SetId_self objs device id, fun p hp => SetId_other objs device id p hp,
    fun hnew => map_SetId_of_not_mem objs device id m_devices hnew⟩

/-- Witness for C28 (amended): with ids 0 and 2 taken for "SDL/pad" the added object gets
id 1 and goes to the end of the list; the three listed objects are as before. -/
theorem AddDevice_least_id_witness :
    (AddDevice (fun p => if p = 1 then ⟨"SDL", "pad", 0⟩ else if p = 2 then ⟨"SDL", "pad", 2⟩
      else if p = 3 then ⟨"XInput", "pad", 1⟩ else ⟨"SDL", "pad", 77⟩) [1, 2, 3] 4).map
      (fun r => (r.2, r.2.map r.1)) =
      some ([1, 2, 3, 4],
        [⟨"SDL", "pad", 0⟩, ⟨"SDL", "pad", 2⟩, ⟨"XInput", "pad", 1⟩, ⟨"SDL", "pad", 1⟩]) ∧
    4 ∉ [1, 2, 3] ∧
    ∃ id : Int,
      AddDevice (fun p => if p = 1 then ⟨"SDL", "pad", 0⟩ else if p = 2 then ⟨"SDL", "pad", 2⟩
        else if p = 3 then ⟨"XInput", "pad", 1⟩ else ⟨"SDL", "pad", 77⟩) [1, 2, 3] 4 =
        some (SetId (fun p => if p = 1 then ⟨"SDL", "pad", 0⟩
          else if p = 2 then ⟨"SDL", "pad", 2⟩
          else if p = 3 then ⟨"XInput", "pad", 1⟩ else ⟨"SDL", "pad", 77⟩) 4 id,
          [1, 2, 3] ++ [4]) ∧
      0 ≤ id ∧
      [1, 2, 3].map (SetId (fun p => if p = 1 then ⟨"SDL", "pad", 0⟩
          else if p = 2 then ⟨"SDL", "pad", 2⟩
          else if p = 3 then ⟨"XInput", "pad", 1⟩ else ⟨"SDL", "pad", 77⟩) 4 id) =
        [1, 2, 3].map (fun p => if p = 1 then ⟨"SDL", "pad", 0⟩
          else if p = 2 then ⟨"SDL", "pad", 2⟩
          else if p = 3 then ⟨"XInput", "pad", 1⟩ else ⟨"SDL", "pad", 77⟩) :=
  ⟨by decide, by decide,
    (AddDevice_least_id (fun p => if p = 1 then ⟨"SDL", "pad", 0⟩
      else if p = 2 then ⟨"SDL", "pad", 2⟩
      else if p = 3 then ⟨"XInput", "pad", 1⟩ else ⟨"SDL", "pad", 77⟩) [1, 2, 3] 4).elim
      (fun id h => ⟨id, h.1, h.2.1, h.2.2.2.2.2.2.2.2.2 (by decide)⟩)⟩

/-! ## `OutputReference::Detect`: the wait loop -/

theorem OutputReference_Detect_loop_in_range (ms : Nat) (hms : ms ≤ 4294967290) (fuel j : Nat)
    (hj : j ≤ (ms + 9) / 10 - 1) (hfuel : (ms + 9) / 10 - 1 - j < fuel) :
    OutputReference.Detect_loop ms fuel (10 * j) j = some ((ms + 9) / 10 - 1) := by
  induction fuel generalizing j with
  | zero => omega
  | succ fuel ih =>
    unfold OutputReference.Detect_loop
    have hmod : (10 * j + 10) % 2 ^ 32 = 10 * (j + 1) := by
      norm_num
      omega
    simp only [hmod]
    by_cases hgt : ms > 10 * (j + 1)
    · rw [if_pos hgt]
      exact ih (j + 1) (by omega) (by omega)
    · rw [if_neg hgt]
      congr 1
      omega

/-- Where `slept` cannot wrap, that is for `ms ≤ 2^32 - 6`, the call returns `nullptr`
after `max(0, ceil(ms / 10) - 1)` sleeps, between `State(1)` and `State(0)`. -/
theorem OutputReference_Detect_in_range (BoundCount ms : Nat) (hb : 0 < BoundCount)
    (hms : ms ≤ 4294967290) :
    OutputReference.Detect (ms / 10 + 1) BoundCount ms =
      some { ret := none, states := [1, 0], sleeps := (ms + 9) / 10 - 1 } := by
  unfold OutputReference.Detect
  rw [if_pos hb]
  have h := OutputReference_Detect_loop_in_range ms hms (ms / 10 + 1) 0 (by omega) (by omega)
  simp only [Nat.mul_zero] at h
  rw [h]

theorem OutputReference_Detect_loop_wraps (fuel slept sleeps : Nat) (heven : slept % 2 = 0) :
    OutputReference.Detect_loop 0xFFFFFFFF fuel slept sleeps = none := by
  induction fuel generalizing slept sleeps with
  | zero => rfl
  | succ fuel ih =>
    unfold OutputReference.Detect_loop
    have hlt : 0xFFFFFFFF > (slept + 10) % 2 ^ 32 := by
      norm_num
      omega
    simp only [hlt, if_true]
    apply ih
    norm_num
    omega

/-- C30 (code defect): with one bound control and `ms = 0xFFFFFFFF` the wait loop never
ends, whatever number of iterations it is given: `slept` runs through even values only
and wraps at `2^32`, so it never reaches the odd `ms`. -/
theorem OutputReference_Detect_hangs :
    ∀ fuel, OutputReference.Detect fuel 1 0xFFFFFFFF = none := by
  intro fuel
  unfold OutputReference.Detect
  rw [if_pos (by decide), OutputReference_Detect_loop_wraps fuel 0 0 rfl]

end ControllerInterface

namespace CWII_IPC_HLE_Device_es

/-! ## `IOCTL_ES_READCONTENT`: the clamp of the read size -/

/-- Where `m_Position + Size` does not wrap, the bytes copied and reported are
`min(Size, m_Size - m_Position)` and the position advances by that number. -/
theorem IOCtlV_READCONTENT_no_wrap (rContent : SContentAccess) (Size : Nat)
    (hpos : rContent.m_Position ≤ rContent.m_Size) (hsize : rContent.m_Size < 2 ^ 32)
    (hsum : rContent.m_Position + Size < 2 ^ 32) :
    IOCtlV_READCONTENT rContent Size =
      { rContent := { rContent with
          m_Position := rContent.m_Position + min Size (rContent.m_Size - rContent.m_Position) },
        copied := min Size (rContent.m_Size - rContent.m_Position),
        Size := min Size (rContent.m_Size - rContent.m_Position) } := by
  obtain ⟨pos, size⟩ := rContent
  simp only at hpos hsize hsum
  unfold IOCtlV_READCONTENT
  simp only
  rw [Nat.mod_eq_of_lt hsum]
  by_cases hgt : pos + Size > size
  · have hmin : min Size (size - pos) = size - pos := by omega
    have hsub : (size + 2 ^ 32 - pos) % 2 ^ 32 = size - pos := by
      have : size + 2 ^ 32 - pos = (size - pos) + 2 ^ 32 := by omega
      rw [this, Nat.add_mod_right]
      exact Nat.mod_eq_of_lt (by omega)
    rw [if_pos hgt, hsub, hmin]
    by_cases h0 : size - pos > 0
    · rw [if_pos h0]
      have : (pos + (size - pos)) % 2 ^ 32 = pos + (size - pos) := Nat.mod_eq_of_lt (by omega)
      rw [this]
    · rw [if_neg h0]
      have : size - pos = 0 := by omega
      simp [this]
  · have hmin : min Size (size - pos) = Size := by omega
    rw [if_neg hgt, hmin]
    by_cases h0 : Size > 0
    · rw [if_pos h0, Nat.mod_eq_of_lt hsum]
    · rw [if_neg h0]
      have : Size = 0 := by omega
      simp [this]

/-- C29 (code defect): for a content of `0x100` bytes at position `0x10` and a requested
size of `0xFFFFFFF8` the sum `m_Position + Size` wraps to 8, the clamp is skipped, and
`0xFFFFFFF8` bytes are copied and reported, far past the `0xF0` bytes left in the
content; the position wraps to 8. -/
theorem IOCtlV_READCONTENT_wraps :
    IOCtlV_READCONTENT ⟨0x10, 0x100⟩ 0xFFFFFFF8 = ⟨⟨8, 0x100⟩, 0xFFFFFFF8, 0xFFFFFFF8⟩ ∧
    min 0xFFFFFFF8 (0x100 - 0x10) = 0xF0 ∧
    (0x10 + 0xFFFFFFF8) % 2 ^ 32 = 8 := by
  decide

end CWII_IPC_HLE_Device_es
